import Mathlib

/-!
A shallow embedding of the cut-optimizer-2d core: geometry primitives,
the guillotine bin, the MaxRects bin, the optimizer unit, the genetic
population loop, and the solution driver's best-result comparison,
together with theorems settling claims about the specification.

Modelling conventions:
* usize / u64 / isize are modelled as Nat and Int; all quantities on the
  verified paths are small enough that no wrapping occurs in the source.
* Sentinels such as isize::MAX or usize::MAX meaning "no candidate yet"
  are modelled as Option.none.
* f64 values that flow only through comparisons and exact +, *, / are
  modelled as exact rationals; the one place the source can produce NaN
  (0.0 / 0.0 on a unit with no bins) is modelled as Option.none.
* Vec::push appends at the end; Vec::pop takes from the end;
  Vec::swap_remove i moves the last element into slot i.
-/

namespace CutOpt

/-- Pattern (grain) direction, from PatternDirection in src/lib.rs. -/
inductive PatternDirection
  | none
  | parallelToWidth
  | parallelToLength
deriving DecidableEq, Repr

/-- Opposite orientation of a pattern direction (PatternDirection::rotated). -/
def PatternDirection.rotated : PatternDirection → PatternDirection
  | .none => .none
  | .parallelToWidth => .parallelToLength
  | .parallelToLength => .parallelToWidth

/-- A rectangle, from Rect in src/lib.rs: low edges closed, high edges open. -/
structure Rect where
  x : Nat
  y : Nat
  width : Nat
  length : Nat
deriving DecidableEq, Repr

instance : Inhabited Rect := ⟨⟨0, 0, 0, 0⟩⟩

/-- A demand piece expanded to a single unit, from CutPieceWithId in src/lib.rs. -/
structure CutPieceWithId where
  id : Nat
  external_id : Option Nat
  width : Nat
  length : Nat
  pattern_direction : PatternDirection
  can_rotate : Bool
deriving DecidableEq, Repr

/-- A caller-facing demand piece, from CutPiece in src/lib.rs. -/
structure CutPiece where
  external_id : Option Nat
  width : Nat
  length : Nat
  pattern_direction : PatternDirection
  can_rotate : Bool
deriving DecidableEq, Repr

/-- A placed piece, from UsedCutPiece in src/lib.rs; equality in the source is by id. -/
structure UsedCutPiece where
  id : Nat
  external_id : Option Nat
  rect : Rect
  pattern_direction : PatternDirection
  is_rotated : Bool
  can_rotate : Bool
deriving DecidableEq, Repr

/-- A stock piece, from StockPiece in src/lib.rs (this revision has no price or quantity). -/
structure StockPiece where
  width : Nat
  length : Nat
  pattern_direction : PatternDirection
deriving DecidableEq, Repr

/-- Fit classification, from Fit in src/lib.rs. -/
inductive Fit
  | none
  | uprightExact
  | rotatedExact
  | upright
  | rotated
deriving DecidableEq, Repr

/-- Fit::is_none. -/
def Fit.is_none : Fit → Bool
  | .none => true
  | _ => false

/-- Fit::is_upright. -/
def Fit.is_upright : Fit → Bool
  | .upright => true
  | .uprightExact => true
  | _ => false

/-- Fit::is_rotated. -/
def Fit.is_rotated : Fit → Bool
  | .rotated => true
  | .rotatedExact => true
  | _ => false

/-- Rect::fit_cut_piece from src/lib.rs (lines 264-295): the two-argument
classification.  The upright branch is tested first and wins whenever it
applies; the rotated branch is only reached when the upright branch does
not return. -/
def Rect.fit_cut_piece (self : Rect) (pattern_direction : PatternDirection)
    (cut_piece : CutPieceWithId) : Fit :=
  if cut_piece.pattern_direction = pattern_direction ∧
      cut_piece.width = self.width ∧ cut_piece.length = self.length then
    .uprightExact
  else if cut_piece.pattern_direction = pattern_direction ∧
      cut_piece.width ≤ self.width ∧ cut_piece.length ≤ self.length then
    .upright
  else if cut_piece.can_rotate = true ∧
      cut_piece.pattern_direction.rotated = pattern_direction ∧
      cut_piece.length = self.width ∧ cut_piece.width = self.length then
    .rotatedExact
  else if cut_piece.can_rotate = true ∧
      cut_piece.pattern_direction.rotated = pattern_direction ∧
      cut_piece.length ≤ self.width ∧ cut_piece.width ≤ self.length then
    .rotated
  else
    .none

/-- Modelled from the spec: the three-argument fit classification used by the
bin implementations (guillotine.rs and maxrects.rs call
fit_cut_piece(pattern_direction, cut_piece, prefer_rotated); that revision of
Rect::fit_cut_piece is not part of the source under src/, which only holds the
two-argument revision).  Spec section 4.1: upright is considered iff the bin
direction equals the piece direction (exact when the dimensions are equal,
otherwise when they fit); rotated is considered iff can_rotate and the bin
direction equals the rotated piece direction; an exact fit short-circuits, and
when both a non-exact upright and a non-exact rotated option exist,
prefer_rotated picks one. -/
def Rect.fit_cut_piece3 (self : Rect) (pattern_direction : PatternDirection)
    (cut_piece : CutPieceWithId) (prefer_rotated : Bool) : Fit :=
  let upright_ok := cut_piece.pattern_direction = pattern_direction ∧
    cut_piece.width ≤ self.width ∧ cut_piece.length ≤ self.length
  let upright_exact := cut_piece.pattern_direction = pattern_direction ∧
    cut_piece.width = self.width ∧ cut_piece.length = self.length
  let rotated_ok := cut_piece.can_rotate = true ∧
    cut_piece.pattern_direction.rotated = pattern_direction ∧
    cut_piece.length ≤ self.width ∧ cut_piece.width ≤ self.length
  let rotated_exact := cut_piece.can_rotate = true ∧
    cut_piece.pattern_direction.rotated = pattern_direction ∧
    cut_piece.length = self.width ∧ cut_piece.width = self.length
  if upright_exact ∧ ¬(rotated_exact ∧ prefer_rotated = true) then .uprightExact
  else if rotated_exact then .rotatedExact
  else if upright_ok ∧ rotated_ok then
    (if prefer_rotated then .rotated else .upright)
  else if upright_ok then .upright
  else if rotated_ok then .rotated
  else .none

/-- Rect::contains from src/lib.rs. -/
def Rect.contains (self rect : Rect) : Bool :=
  rect.x ≥ self.x && rect.x + rect.width ≤ self.x + self.width &&
  rect.y ≥ self.y && rect.y + rect.length ≤ self.y + self.length

/-- StockPiece::fits_cut_piece from src/lib.rs: the full-stock rectangle
classification is not Fit::None. -/
def StockPiece.fits_cut_piece (self : StockPiece) (cut_piece : CutPieceWithId) : Bool :=
  !(Rect.fit_cut_piece ⟨0, 0, self.width, self.length⟩ self.pattern_direction cut_piece).is_none

/-- CutPieceWithId → CutPiece conversion used by no_fit_for_cut_piece_error
in src/lib.rs (drops the internal id). -/
def no_fit_for_cut_piece_error (cut_piece : CutPieceWithId) : CutPiece :=
  { external_id := cut_piece.external_id
    width := cut_piece.width
    length := cut_piece.length
    pattern_direction := cut_piece.pattern_direction
    can_rotate := cut_piece.can_rotate }

/-- UsedCutPiece → CutPieceWithId conversion (the Into impl in src/lib.rs):
a rotated placement swaps back the dimensions and the direction. -/
def UsedCutPiece.toCutPieceWithId (self : UsedCutPiece) : CutPieceWithId :=
  if self.is_rotated then
    { id := self.id, external_id := self.external_id
      width := self.rect.length, length := self.rect.width
      pattern_direction := self.pattern_direction.rotated
      can_rotate := self.can_rotate }
  else
    { id := self.id, external_id := self.external_id
      width := self.rect.width, length := self.rect.length
      pattern_direction := self.pattern_direction
      can_rotate := self.can_rotate }

/-- Vec::swap_remove: replace slot i with the last element, then drop the last. -/
def swapRemove (l : List α) (i : Nat) : List α :=
  match l.getLast? with
  | Option.none => []
  | some last => (l.set i last).dropLast

/-- A deterministic stream of pseudo-random numbers: the function gives the
draw at each step, the counter is the next step.  Modelled from the spec: the
source's StdRng (from the external rand crate) is a deterministic PRNG seeded
from a 64-bit value; only its determinism matters here, not its permutation. -/
structure Rng where
  f : Nat → Nat
  i : Nat

/-- One draw in the half-open range 0..n (rand gen_range(0..n), n > 0). -/
def Rng.next (r : Rng) (n : Nat) : Nat × Rng :=
  (r.f r.i % n, ⟨r.f, r.i + 1⟩)

/-- Modelled from the spec: SeedableRng::seed_from_u64 builds a deterministic
PRNG from the seed; an explicit linear-congruential stream stands in for
StdRng's (external, unspecified here) permutation. -/
def rngOf (seed : Nat) : Rng :=
  ⟨fun n => (seed * 48271 + n * 16807 + 12345) % 2147483647, 0⟩

/-! ## Guillotine bin (src/guillotine.rs) -/

/-- Free-rectangle choice heuristic, from guillotine.rs. -/
inductive FreeRectChoiceHeuristic
  | bestAreaFit
  | bestShortSideFit
  | bestLongSideFit
  | worstAreaFit
  | worstShortSideFit
  | worstLongSideFit
  | smallestY
deriving DecidableEq, Repr

/-- Split heuristic, from guillotine.rs. -/
inductive SplitHeuristic
  | shorterLeftoverAxis
  | longerLeftoverAxis
  | minimizeArea
  | maximizeArea
  | shorterAxis
  | longerAxis
deriving DecidableEq, Repr

/-- Rotation preference heuristic, from guillotine.rs. -/
inductive RotateCutPieceHeuristic
  | preferUpright
  | preferRotated
deriving DecidableEq, Repr

/-- score_best_area_fit from guillotine.rs. -/
def score_best_area_fit (width length : Nat) (free_rect : Rect) : Int :=
  (free_rect.width : Int) * (free_rect.length : Int) - (width : Int) * (length : Int)

/-- score_best_short_side_fit from guillotine.rs. -/
def score_best_short_side_fit (width length : Nat) (free_rect : Rect) : Int :=
  let leftover_horiz := ((free_rect.width : Int) - (width : Int)).natAbs
  let leftover_vert := ((free_rect.length : Int) - (length : Int)).natAbs
  (min leftover_horiz leftover_vert : Nat)

/-- score_best_long_side_fit from guillotine.rs. -/
def score_best_long_side_fit (width length : Nat) (free_rect : Rect) : Int :=
  let leftover_horiz := ((free_rect.width : Int) - (width : Int)).natAbs
  let leftover_vert := ((free_rect.length : Int) - (length : Int)).natAbs
  (max leftover_horiz leftover_vert : Nat)

/-- score_by_heuristic from guillotine.rs (the Worst variants negate). -/
def score_by_heuristic (width length : Nat) (free_rect : Rect)
    (rect_choice : FreeRectChoiceHeuristic) : Int :=
  match rect_choice with
  | .bestAreaFit => score_best_area_fit width length free_rect
  | .bestShortSideFit => score_best_short_side_fit width length free_rect
  | .bestLongSideFit => score_best_long_side_fit width length free_rect
  | .worstAreaFit => -score_best_area_fit width length free_rect
  | .worstShortSideFit => -score_best_short_side_fit width length free_rect
  | .worstLongSideFit => -score_best_long_side_fit width length free_rect
  | .smallestY => (free_rect.y : Int)

/-- Is a candidate score better than the best so far?  Option.none models the
initial isize::MAX sentinel of find_placement_for_cut_piece. -/
def score_lt (s : Int) : Option Int → Bool
  | Option.none => true
  | some b => s < b

/-- The mutable search state of GuillotineBin::find_placement_for_cut_piece. -/
structure GSearchState where
  best_rect : Rect
  best_score : Option Int
  best_fit : Fit
  free_index : Option Nat
deriving Repr

/-- The scan loop of GuillotineBin::find_placement_for_cut_piece: walk the
free rectangles; break immediately on an exact fit; otherwise keep the best
score.  The index argument is the position of the head of the remaining list. -/
def find_placement_loop (pd : PatternDirection) (cp : CutPieceWithId)
    (rect_choice : FreeRectChoiceHeuristic) (prefer_rotated : Bool) :
    Nat → List Rect → GSearchState → GSearchState
  | _, [], st => st
  | i, fr :: rest, st =>
    match fr.fit_cut_piece3 pd cp prefer_rotated with
    | Fit.uprightExact =>
      { st with best_rect := ⟨fr.x, fr.y, cp.width, cp.length⟩,
                best_fit := .uprightExact, free_index := some i }
    | Fit.rotatedExact =>
      { st with best_rect := ⟨fr.x, fr.y, cp.length, cp.width⟩,
                best_fit := .rotatedExact, free_index := some i }
    | Fit.upright =>
      let score := score_by_heuristic cp.width cp.length fr rect_choice
      let st' := if score_lt score st.best_score then
          { best_rect := ⟨fr.x, fr.y, cp.width, cp.length⟩, best_score := some score,
            best_fit := .upright, free_index := some i }
        else st
      find_placement_loop pd cp rect_choice prefer_rotated (i + 1) rest st'
    | Fit.rotated =>
      let score := score_by_heuristic cp.length cp.width fr rect_choice
      let st' := if score_lt score st.best_score then
          { best_rect := ⟨fr.x, fr.y, cp.length, cp.width⟩, best_score := some score,
            best_fit := .rotated, free_index := some i }
        else st
      find_placement_loop pd cp rect_choice prefer_rotated (i + 1) rest st'
    | Fit.none =>
      find_placement_loop pd cp rect_choice prefer_rotated (i + 1) rest st

/-- Split axis, from guillotine.rs. -/
inductive SplitAxis
  | horizontal
  | vertical
deriving DecidableEq, Repr

/-- GuillotineBin::split_free_rect_along_axis, returning the rectangles that
the source pushes into the free list (bottom first, then right); a remainder
whose dimension does not exceed the blade width is degenerate and dropped. -/
def split_free_rect_along_axis (blade_width : Nat) (free_rect rect : Rect)
    (split_axis : SplitAxis) : List Rect :=
  let bottom_width := match split_axis with
    | .horizontal => free_rect.width
    | .vertical => rect.width
  let right_length := match split_axis with
    | .horizontal => rect.length
    | .vertical => free_rect.length
  let bottom_length := if free_rect.length - rect.length > blade_width then
      free_rect.length - rect.length - blade_width
    else 0
  let right_width := if free_rect.width - rect.width > blade_width then
      free_rect.width - rect.width - blade_width
    else 0
  (if bottom_width > 0 ∧ bottom_length > 0 then
    [⟨free_rect.x, free_rect.y + rect.length + blade_width, bottom_width, bottom_length⟩]
  else []) ++
  (if right_width > 0 ∧ right_length > 0 then
    [⟨free_rect.x + rect.width + blade_width, free_rect.y, right_width, right_length⟩]
  else [])

/-- GuillotineBin::split_free_rect_by_heuristic: pick a horizontal or a
vertical cut for the L-shaped leftover. -/
def split_free_rect_by_heuristic (blade_width : Nat) (free_rect rect : Rect)
    (method : SplitHeuristic) : List Rect :=
  let w := free_rect.width - rect.width
  let h := free_rect.length - rect.length
  let split_horizontal : Bool := match method with
    | .shorterLeftoverAxis => decide (w ≤ h)
    | .longerLeftoverAxis => decide (w > h)
    | .minimizeArea => decide (rect.width * h > w * rect.length)
    | .maximizeArea => decide (rect.width * h ≤ w * rect.length)
    | .shorterAxis => decide (free_rect.width ≤ free_rect.length)
    | .longerAxis => decide (free_rect.width > free_rect.length)
  let split_axis := if split_horizontal then SplitAxis.horizontal else SplitAxis.vertical
  split_free_rect_along_axis blade_width free_rect rect split_axis

/-- One comparison of GuillotineBin::merge_free_rects: try to merge the
rectangles at indices i and j (j is removed by swap_remove on success). -/
def merge_step (blade_width : Nat) (l : List Rect) (i j : Nat) : List Rect :=
  match l.get? i, l.get? j with
  | some ri, some rj =>
    if ri.width = rj.width ∧ ri.x = rj.x then
      if ri.y = rj.y + rj.length + blade_width then
        swapRemove (l.set i ⟨ri.x, ri.y - (rj.length + blade_width), ri.width,
          ri.length + (rj.length + blade_width)⟩) j
      else if ri.y + ri.length + blade_width = rj.y then
        swapRemove (l.set i ⟨ri.x, ri.y, ri.width,
          ri.length + (rj.length + blade_width)⟩) j
      else l
    else if ri.length = rj.length ∧ ri.y = rj.y then
      if ri.x = rj.x + rj.width + blade_width then
        swapRemove (l.set i ⟨ri.x - (rj.width + blade_width), ri.y,
          ri.width + (rj.width + blade_width), ri.length⟩) j
      else if ri.x + ri.width + blade_width = rj.x then
        swapRemove (l.set i ⟨ri.x, ri.y,
          ri.width + (rj.width + blade_width), ri.length⟩) j
      else l
    else l
  | _, _ => l

/-- The inner loop of merge_free_rects: j runs downward to i + 1.  The list
may shrink during the loop; merge_step guards out-of-range indices. -/
def merge_inner (blade_width i : Nat) : Nat → List Rect → List Rect
  | 0, l => l
  | j + 1, l =>
    if j + 1 ≤ i then l
    else merge_inner blade_width i j (merge_step blade_width l i (j + 1))

/-- The outer loop of merge_free_rects: i runs downward from the initial
length minus one; the inner range is re-read from the current length. -/
def merge_outer (blade_width : Nat) : Nat → List Rect → List Rect
  | 0, l => l
  | i + 1, l => merge_outer blade_width i (merge_inner blade_width i (l.length - 1) l)

/-- GuillotineBin::merge_free_rects. -/
def merge_free_rects (blade_width : Nat) (l : List Rect) : List Rect :=
  merge_outer blade_width l.length l

/-- The guillotine bin state, from GuillotineBin in src/guillotine.rs. -/
structure GuillotineBin where
  width : Nat
  length : Nat
  blade_width : Nat
  pattern_direction : PatternDirection
  cut_pieces : List UsedCutPiece
  free_rects : List Rect
  price : Nat
deriving Repr

/-- GuillotineBin::new: a single free rectangle spanning the whole bin. -/
def GuillotineBin.new (width length blade_width : Nat)
    (pattern_direction : PatternDirection) (price : Nat) : GuillotineBin :=
  { width, length, blade_width, pattern_direction
    cut_pieces := []
    free_rects := [⟨0, 0, width, length⟩]
    price }

/-- GuillotineBin::find_placement_for_cut_piece. -/
def GuillotineBin.find_placement_for_cut_piece (b : GuillotineBin)
    (cut_piece : CutPieceWithId) (rect_choice : FreeRectChoiceHeuristic)
    (prefer_rotated : Bool) : Option (UsedCutPiece × Nat) :=
  let st := find_placement_loop b.pattern_direction cut_piece rect_choice prefer_rotated
    0 b.free_rects ⟨⟨0, 0, 0, 0⟩, Option.none, Fit.none, Option.none⟩
  match st.free_index with
  | some index =>
    let is_rotated := st.best_fit.is_rotated
    let pattern_direction := if is_rotated then
        cut_piece.pattern_direction.rotated
      else cut_piece.pattern_direction
    some ({ id := cut_piece.id, external_id := cut_piece.external_id,
            rect := st.best_rect, pattern_direction, is_rotated,
            can_rotate := cut_piece.can_rotate }, index)
  | Option.none => Option.none

/-- GuillotineBin::insert_with_heuristics: find a placement, remove the chosen
free rectangle, split the L-shaped leftover, optionally merge, and record the
placed piece.  Returns whether the insert succeeded together with the bin. -/
def GuillotineBin.insert_with_heuristics (b : GuillotineBin) (cut_piece : CutPieceWithId)
    (merge : Bool) (rect_choice : FreeRectChoiceHeuristic) (split_method : SplitHeuristic)
    (rotate_preference : RotateCutPieceHeuristic) : Bool × GuillotineBin :=
  let prefer_rotated : Bool := rotate_preference = RotateCutPieceHeuristic.preferRotated
  match b.find_placement_for_cut_piece cut_piece rect_choice prefer_rotated with
  | some (used_piece, free_index) =>
    match b.free_rects.get? free_index with
    | some free_rect =>
      let after_remove := swapRemove b.free_rects free_index
      let after_split := after_remove ++
        split_free_rect_by_heuristic b.blade_width free_rect used_piece.rect split_method
      let after_merge := if merge then merge_free_rects b.blade_width after_split
        else after_split
      (true, { b with free_rects := after_merge,
                      cut_pieces := b.cut_pieces ++ [used_piece] })
    | Option.none => (false, b)
  | Option.none => (false, b)

/-- GuillotineBin::insert_cut_piece_with_heuristic (merge = true). -/
def GuillotineBin.insert_cut_piece_with_heuristic (b : GuillotineBin)
    (cut_piece : CutPieceWithId)
    (h : FreeRectChoiceHeuristic × SplitHeuristic × RotateCutPieceHeuristic) :
    Bool × GuillotineBin :=
  b.insert_with_heuristics cut_piece true h.1 h.2.1 h.2.2

/-- The Distribution impls in guillotine.rs: a random heuristic draws the
choice rule from the first three (Worst variants excluded), the split rule
from all six, and the rotation preference from both. -/
def g_random_heuristic (rng : Rng) :
    (FreeRectChoiceHeuristic × SplitHeuristic × RotateCutPieceHeuristic) × Rng :=
  let (c, rng1) := rng.next 3
  let choice := match c with
    | 0 => FreeRectChoiceHeuristic.bestAreaFit
    | 1 => FreeRectChoiceHeuristic.bestShortSideFit
    | _ => FreeRectChoiceHeuristic.bestLongSideFit
  let (s, rng2) := rng1.next 6
  let split := match s with
    | 0 => SplitHeuristic.shorterLeftoverAxis
    | 1 => SplitHeuristic.longerLeftoverAxis
    | 2 => SplitHeuristic.minimizeArea
    | 3 => SplitHeuristic.maximizeArea
    | 4 => SplitHeuristic.shorterAxis
    | _ => SplitHeuristic.longerAxis
  let (r, rng3) := rng2.next 2
  let rot := match r with
    | 0 => RotateCutPieceHeuristic.preferUpright
    | _ => RotateCutPieceHeuristic.preferRotated
  ((choice, split, rot), rng3)

/-- GuillotineBin::insert_cut_piece_random_heuristic. -/
def GuillotineBin.insert_cut_piece_random_heuristic (b : GuillotineBin)
    (cut_piece : CutPieceWithId) (rng : Rng) : (Bool × GuillotineBin) × Rng :=
  let (h, rng') := g_random_heuristic rng
  (b.insert_cut_piece_with_heuristic cut_piece h, rng')

/-- The inner index loop of remove_cut_pieces for one target id: walk the
placed pieces downward, erase every piece with that id and push its rectangle
onto the free list. -/
def remove_matching_loop (target_id : Nat) :
    Nat → List UsedCutPiece × List Rect → List UsedCutPiece × List Rect
  | 0, s => s
  | i + 1, s =>
    let s' := match s.1.get? i with
      | some p => if p.id = target_id then (s.1.eraseIdx i, s.2 ++ [p.rect]) else s
      | Option.none => s
    remove_matching_loop target_id i s'

/-- GuillotineBin::remove_cut_pieces: remove every piece matching one of the
targets (equality is by id), return its rectangle to the free list, re-merge,
and report how many pieces were removed. -/
def GuillotineBin.remove_cut_pieces (b : GuillotineBin)
    (targets : List UsedCutPiece) : GuillotineBin × Nat :=
  let old_len := b.cut_pieces.length
  let s := targets.foldl (fun s t => remove_matching_loop t.id s.1.length s)
    (b.cut_pieces, b.free_rects)
  let fs := merge_free_rects b.blade_width s.2
  ({ b with cut_pieces := s.1, free_rects := fs }, old_len - s.1.length)

/-! ## MaxRects bin (src/maxrects.rs) -/

/-- Free-rectangle choice heuristic, from maxrects.rs. -/
inductive MRFreeRectChoiceHeuristic
  | bestShortSideFit
  | bestLongSideFit
  | bestAreaFit
  | bottomLeftRule
  | contactPointRule
deriving DecidableEq, Repr

/-- The absolute difference computed in the source by casting to a signed
integer, subtracting, and taking abs. -/
def intAbsDiff (a b : Nat) : Nat :=
  ((a : Int) - (b : Int)).natAbs

/-- common_interval_length from maxrects.rs. -/
def common_interval_length (start1 end1 start2 end2 : Nat) : Nat :=
  if end1 < start2 ∨ end2 < start1 then 0
  else min end1 end2 - max start1 start2

/-- MaxRectsBin::contact_point_score over the bin dimensions and the placed
pieces: edge contact plus interval overlap with every placed piece. -/
def contact_point_score (bin_width bin_length : Nat) (pieces : List UsedCutPiece)
    (x y width length : Nat) : Nat :=
  let base := (if x = 0 ∨ x + width = bin_width then length else 0) +
    (if y = 0 ∨ y + length = bin_length then width else 0)
  pieces.foldl (fun score cut_piece =>
    let rect := cut_piece.rect
    let score := if rect.x = x + width ∨ rect.x + rect.width = x then
        score + common_interval_length rect.y (rect.y + rect.length) y (y + length)
      else score
    if rect.y = y + length ∨ rect.y + rect.length = y then
      score + common_interval_length rect.x (rect.x + rect.width) x (x + width)
    else score) base

/-- One step of MaxRectsBin::find_placement_bottom_left.  The best candidate
is (rect, fit, top side y, x); Option.none models the usize::MAX sentinels
before the first fitting rectangle. -/
def mr_bl_step (pd : PatternDirection) (cp : CutPieceWithId) (prefer_rotated : Bool)
    (best : Option (Rect × Fit × Nat × Nat)) (fr : Rect) :
    Option (Rect × Fit × Nat × Nat) :=
  let fit := fr.fit_cut_piece3 pd cp prefer_rotated
  if fit.is_upright then
    let top_side_y := fr.y + cp.length
    let better := match best with
      | Option.none => true
      | some (_, _, by_, bx) => decide (top_side_y < by_ ∨ (top_side_y = by_ ∧ fr.x < bx))
    if better then some (⟨fr.x, fr.y, cp.width, cp.length⟩, fit, top_side_y, fr.x)
    else best
  else if fit.is_rotated then
    let top_side_y := fr.y + cp.width
    let better := match best with
      | Option.none => true
      | some (_, _, by_, bx) => decide (top_side_y < by_ ∨ (top_side_y = by_ ∧ fr.x < bx))
    if better then some (⟨fr.x, fr.y, cp.length, cp.width⟩, fit, top_side_y, fr.x)
    else best
  else best

/-- MaxRectsBin::find_placement_bottom_left as a fold over the free list. -/
def mr_find_bottom_left (pd : PatternDirection) (cp : CutPieceWithId)
    (prefer_rotated : Bool) (rects : List Rect) (best : Option (Rect × Fit × Nat × Nat)) :
    Option (Rect × Fit × Nat × Nat) :=
  rects.foldl (mr_bl_step pd cp prefer_rotated) best

/-- One step of MaxRectsBin::find_placement_best_short_side_fit.  The best
candidate is (rect, fit, short side fit, long side fit). -/
def mr_bssf_step (pd : PatternDirection) (cp : CutPieceWithId) (prefer_rotated : Bool)
    (best : Option (Rect × Fit × Nat × Nat)) (fr : Rect) :
    Option (Rect × Fit × Nat × Nat) :=
  let fit := fr.fit_cut_piece3 pd cp prefer_rotated
  if fit.is_upright then
    let ssf := min (intAbsDiff fr.width cp.width) (intAbsDiff fr.length cp.length)
    let lsf := max (intAbsDiff fr.width cp.width) (intAbsDiff fr.length cp.length)
    let better := match best with
      | Option.none => true
      | some (_, _, bs, bl) => decide (ssf < bs ∨ (ssf = bs ∧ lsf < bl))
    if better then some (⟨fr.x, fr.y, cp.width, cp.length⟩, fit, ssf, lsf) else best
  else if fit.is_rotated then
    let ssf := min (intAbsDiff fr.width cp.length) (intAbsDiff fr.length cp.width)
    let lsf := max (intAbsDiff fr.width cp.length) (intAbsDiff fr.length cp.width)
    let better := match best with
      | Option.none => true
      | some (_, _, bs, bl) => decide (ssf < bs ∨ (ssf = bs ∧ lsf < bl))
    if better then some (⟨fr.x, fr.y, cp.length, cp.width⟩, fit, ssf, lsf) else best
  else best

/-- MaxRectsBin::find_placement_best_short_side_fit as a fold. -/
def mr_find_best_short_side (pd : PatternDirection) (cp : CutPieceWithId)
    (prefer_rotated : Bool) (rects : List Rect) (best : Option (Rect × Fit × Nat × Nat)) :
    Option (Rect × Fit × Nat × Nat) :=
  rects.foldl (mr_bssf_step pd cp prefer_rotated) best

/-- One step of MaxRectsBin::find_placement_best_long_side_fit. -/
def mr_blsf_step (pd : PatternDirection) (cp : CutPieceWithId) (prefer_rotated : Bool)
    (best : Option (Rect × Fit × Nat × Nat)) (fr : Rect) :
    Option (Rect × Fit × Nat × Nat) :=
  let fit := fr.fit_cut_piece3 pd cp prefer_rotated
  if fit.is_upright then
    let ssf := min (intAbsDiff fr.width cp.width) (intAbsDiff fr.length cp.length)
    let lsf := max (intAbsDiff fr.width cp.width) (intAbsDiff fr.length cp.length)
    let better := match best with
      | Option.none => true
      | some (_, _, bs, bl) => decide (lsf < bl ∨ (lsf = bl ∧ ssf < bs))
    if better then some (⟨fr.x, fr.y, cp.width, cp.length⟩, fit, ssf, lsf) else best
  else if fit.is_rotated then
    let ssf := min (intAbsDiff fr.width cp.length) (intAbsDiff fr.length cp.width)
    let lsf := max (intAbsDiff fr.width cp.length) (intAbsDiff fr.length cp.width)
    let better := match best with
      | Option.none => true
      | some (_, _, bs, bl) => decide (lsf < bl ∨ (lsf = bl ∧ ssf < bs))
    if better then some (⟨fr.x, fr.y, cp.length, cp.width⟩, fit, ssf, lsf) else best
  else best

/-- MaxRectsBin::find_placement_best_long_side_fit as a fold. -/
def mr_find_best_long_side (pd : PatternDirection) (cp : CutPieceWithId)
    (prefer_rotated : Bool) (rects : List Rect) (best : Option (Rect × Fit × Nat × Nat)) :
    Option (Rect × Fit × Nat × Nat) :=
  rects.foldl (mr_blsf_step pd cp prefer_rotated) best

/-- MaxRectsBin::find_placement_best_area_fit.  A free rectangle whose area is
smaller than the piece's area is skipped before the fit test; the best
candidate is (rect, fit, area fit, short side fit). -/
def mr_baf_step (pd : PatternDirection) (cp : CutPieceWithId) (prefer_rotated : Bool)
    (best : Option (Rect × Fit × Nat × Nat)) (fr : Rect) :
    Option (Rect × Fit × Nat × Nat) :=
  let free_rect_area := fr.width * fr.length
  let cut_piece_area := cp.width * cp.length
  if cut_piece_area > free_rect_area then best
  else
    let area_fit := free_rect_area - cut_piece_area
    let fit := fr.fit_cut_piece3 pd cp prefer_rotated
    if fit.is_upright then
      let ssf := min (intAbsDiff fr.width cp.width) (intAbsDiff fr.length cp.length)
      let better := match best with
        | Option.none => true
        | some (_, _, ba, bs) => decide (area_fit < ba ∨ (area_fit = ba ∧ ssf < bs))
      if better then some (⟨fr.x, fr.y, cp.width, cp.length⟩, fit, area_fit, ssf) else best
    else if fit.is_rotated then
      let ssf := min (intAbsDiff fr.width cp.length) (intAbsDiff fr.length cp.width)
      let better := match best with
        | Option.none => true
        | some (_, _, ba, bs) => decide (area_fit < ba ∨ (area_fit = ba ∧ ssf < bs))
      if better then some (⟨fr.x, fr.y, cp.length, cp.width⟩, fit, area_fit, ssf) else best
    else best

/-- MaxRectsBin::find_placement_best_area_fit as a fold. -/
def mr_find_best_area (pd : PatternDirection) (cp : CutPieceWithId)
    (prefer_rotated : Bool) (rects : List Rect) (best : Option (Rect × Fit × Nat × Nat)) :
    Option (Rect × Fit × Nat × Nat) :=
  rects.foldl (mr_baf_step pd cp prefer_rotated) best

/-- MaxRectsBin::find_placement_contact_point.  The best candidate is
(rect, fit, contact score); the first fitting rectangle is always accepted
because best_fit starts as Fit::None. -/
def mr_cp_step (bin_width bin_length : Nat) (pieces : List UsedCutPiece)
    (pd : PatternDirection) (cp : CutPieceWithId) (prefer_rotated : Bool)
    (best : Option (Rect × Fit × Nat)) (fr : Rect) : Option (Rect × Fit × Nat) :=
  let fit := fr.fit_cut_piece3 pd cp prefer_rotated
  if fit.is_upright then
    let score := contact_point_score bin_width bin_length pieces fr.x fr.y cp.width cp.length
    let better := match best with
      | Option.none => true
      | some (_, _, bs) => decide (score > bs)
    if better then some (⟨fr.x, fr.y, cp.width, cp.length⟩, fit, score) else best
  else if fit.is_rotated then
    let score := contact_point_score bin_width bin_length pieces fr.x fr.y cp.length cp.width
    let better := match best with
      | Option.none => true
      | some (_, _, bs) => decide (score > bs)
    if better then some (⟨fr.x, fr.y, cp.length, cp.width⟩, fit, score) else best
  else best

/-- MaxRectsBin::find_placement_contact_point as a fold. -/
def mr_find_contact_point (bin_width bin_length : Nat) (pieces : List UsedCutPiece)
    (pd : PatternDirection) (cp : CutPieceWithId) (prefer_rotated : Bool)
    (rects : List Rect) (best : Option (Rect × Fit × Nat)) : Option (Rect × Fit × Nat) :=
  rects.foldl (mr_cp_step bin_width bin_length pieces pd cp prefer_rotated) best

/-- The MaxRects bin state, from MaxRectsBin in src/maxrects.rs. -/
structure MaxRectsBin where
  width : Nat
  length : Nat
  blade_width : Nat
  pattern_direction : PatternDirection
  cut_pieces : List UsedCutPiece
  free_rects : List Rect
  price : Nat
deriving Repr

/-- MaxRectsBin::new: a single free rectangle spanning the whole bin. -/
def MaxRectsBin.new (width length blade_width : Nat)
    (pattern_direction : PatternDirection) (price : Nat) : MaxRectsBin :=
  { width, length, blade_width, pattern_direction
    cut_pieces := []
    free_rects := [⟨0, 0, width, length⟩]
    price }

/-- MaxRectsBin::find_placement_for_cut_piece: dispatch on the choice rule;
each search returns the placed rectangle and whether it is rotated. -/
def MaxRectsBin.find_placement_for_cut_piece (b : MaxRectsBin)
    (cut_piece : CutPieceWithId) (rect_choice : MRFreeRectChoiceHeuristic)
    (prefer_rotated : Bool) : Option (Rect × Bool) :=
  let best4 : Option (Rect × Fit × Nat × Nat) := match rect_choice with
    | .bottomLeftRule =>
      mr_find_bottom_left b.pattern_direction cut_piece prefer_rotated b.free_rects Option.none
    | .bestShortSideFit =>
      mr_find_best_short_side b.pattern_direction cut_piece prefer_rotated b.free_rects Option.none
    | .bestLongSideFit =>
      mr_find_best_long_side b.pattern_direction cut_piece prefer_rotated b.free_rects Option.none
    | .bestAreaFit =>
      mr_find_best_area b.pattern_direction cut_piece prefer_rotated b.free_rects Option.none
    | .contactPointRule =>
      (mr_find_contact_point b.width b.length b.cut_pieces b.pattern_direction cut_piece
        prefer_rotated b.free_rects Option.none).map (fun p => (p.1, p.2.1, 0, 0))
  best4.map (fun p => (p.1, p.2.1.is_rotated))

/-- The kerf expansion at the top of MaxRectsBin::split_free_rect: grow the
placed rectangle by the blade width on all four sides, clipped to the bin. -/
def kerf_expand (bin_width bin_length blade_width : Nat) (rect0 : Rect) : Rect :=
  let x := if rect0.x ≥ blade_width then rect0.x - blade_width else 0
  let y := if rect0.y ≥ blade_width then rect0.y - blade_width else 0
  let width0 := rect0.width + rect0.x - x + blade_width
  let width := if x + width0 > bin_width then width0 - (x + width0 - bin_width) else width0
  let length0 := rect0.length + rect0.y - y + blade_width
  let length := if y + length0 > bin_length then length0 - (y + length0 - bin_length)
    else length0
  ⟨x, y, width, length⟩

/-- MaxRectsBin::split_free_rect: if the kerf-expanded placed rectangle
intersects the free rectangle at the given index, push the residual strips
(above, below, left, right) and remove that free rectangle by swap_remove. -/
def mr_split_free_rect (bin_width bin_length blade_width : Nat) (l : List Rect)
    (free_rect_index : Nat) (rect0 : Rect) : List Rect :=
  match l.get? free_rect_index with
  | Option.none => l
  | some free_rect =>
    let rect : Rect := kerf_expand bin_width bin_length blade_width rect0
    if rect.x ≥ free_rect.x + free_rect.width ∨ rect.x + rect.width ≤ free_rect.x ∨
        rect.y ≥ free_rect.y + free_rect.length ∨ rect.y + rect.length ≤ free_rect.y then
      l
    else
      let pushes :=
        (if rect.x < free_rect.x + free_rect.width ∧ rect.x + rect.width > free_rect.x then
          (if rect.y > free_rect.y ∧ rect.y < free_rect.y + free_rect.length then
            [{ free_rect with length := rect.y - free_rect.y }]
          else []) ++
          (if rect.y + rect.length < free_rect.y + free_rect.length then
            [(⟨free_rect.x, rect.y + rect.length, free_rect.width,
               free_rect.y + free_rect.length - rect.y - rect.length⟩ : Rect)]
          else [])
        else []) ++
        (if rect.y < free_rect.y + free_rect.length ∧ rect.y + rect.length > free_rect.y then
          (if rect.x > free_rect.x ∧ rect.x < free_rect.x + free_rect.width then
            [{ free_rect with width := rect.x - free_rect.x }]
          else []) ++
          (if rect.x + rect.width < free_rect.x + free_rect.width then
            [(⟨rect.x + rect.width, free_rect.y,
               free_rect.x + free_rect.width - rect.x - rect.width, free_rect.length⟩ : Rect)]
          else [])
        else [])
      swapRemove (l ++ pushes) free_rect_index

/-- The split loop of MaxRectsBin::insert_with_heuristics: walk the indices
of the original free list downward, splitting each against the placed
rectangle. -/
def mr_split_loop (bin_width bin_length blade_width : Nat) (rect : Rect) :
    Nat → List Rect → List Rect
  | 0, l => l
  | i + 1, l =>
    mr_split_loop bin_width bin_length blade_width rect i
      (mr_split_free_rect bin_width bin_length blade_width l i rect)

/-- One comparison of MaxRectsBin::prune_free_rects: drop whichever of the
rectangles at indices i and j is contained in the other. -/
def prune_step (l : List Rect) (i j : Nat) : List Rect :=
  match l.get? i, l.get? j with
  | some ri, some rj =>
    if rj.contains ri then swapRemove l i
    else if ri.contains rj then swapRemove l j
    else l
  | _, _ => l

/-- The inner loop of prune_free_rects. -/
def prune_inner (i : Nat) : Nat → List Rect → List Rect
  | 0, l => l
  | j + 1, l => if j + 1 ≤ i then l else prune_inner i j (prune_step l i (j + 1))

/-- The outer loop of prune_free_rects. -/
def prune_outer : Nat → List Rect → List Rect
  | 0, l => l
  | i + 1, l => prune_outer i (prune_inner i (l.length - 1) l)

/-- MaxRectsBin::prune_free_rects: remove free rectangles contained in
another free rectangle. -/
def prune_free_rects (l : List Rect) : List Rect :=
  prune_outer l.length l

/-- MaxRectsBin::insert_with_heuristics: find a placement, subtract the
kerf-expanded placed rectangle from every free rectangle, prune, and record
the placed piece. -/
def MaxRectsBin.insert_with_heuristics (b : MaxRectsBin) (cut_piece : CutPieceWithId)
    (rect_choice : MRFreeRectChoiceHeuristic)
    (rotate_preference : RotateCutPieceHeuristic) : Bool × MaxRectsBin :=
  let prefer_rotated : Bool := rotate_preference = RotateCutPieceHeuristic.preferRotated
  match b.find_placement_for_cut_piece cut_piece rect_choice prefer_rotated with
  | some (best_rect, is_rotated) =>
    let l1 := mr_split_loop b.width b.length b.blade_width best_rect
      b.free_rects.length b.free_rects
    let l2 := prune_free_rects l1
    let pattern_direction := if is_rotated then
        cut_piece.pattern_direction.rotated
      else cut_piece.pattern_direction
    let used : UsedCutPiece :=
      { id := cut_piece.id
        external_id := cut_piece.external_id
        rect := best_rect
        pattern_direction
        is_rotated
        can_rotate := cut_piece.can_rotate }
    (true, { b with free_rects := l2, cut_pieces := b.cut_pieces ++ [used] })
  | Option.none => (false, b)

/-- MaxRectsBin::insert_cut_piece_with_heuristic. -/
def MaxRectsBin.insert_cut_piece_with_heuristic (b : MaxRectsBin)
    (cut_piece : CutPieceWithId)
    (h : MRFreeRectChoiceHeuristic × RotateCutPieceHeuristic) : Bool × MaxRectsBin :=
  b.insert_with_heuristics cut_piece h.1 h.2

/-- The Distribution impl in maxrects.rs: a random heuristic draws the choice
rule from all five and the rotation preference from both. -/
def mr_random_heuristic (rng : Rng) :
    (MRFreeRectChoiceHeuristic × RotateCutPieceHeuristic) × Rng :=
  let (c, rng1) := rng.next 5
  let choice := match c with
    | 0 => MRFreeRectChoiceHeuristic.bestShortSideFit
    | 1 => MRFreeRectChoiceHeuristic.bestLongSideFit
    | 2 => MRFreeRectChoiceHeuristic.bestAreaFit
    | 3 => MRFreeRectChoiceHeuristic.bottomLeftRule
    | _ => MRFreeRectChoiceHeuristic.contactPointRule
  let (r, rng2) := rng1.next 2
  let rot := match r with
    | 0 => RotateCutPieceHeuristic.preferUpright
    | _ => RotateCutPieceHeuristic.preferRotated
  ((choice, rot), rng2)

/-- MaxRectsBin::insert_cut_piece_random_heuristic. -/
def MaxRectsBin.insert_cut_piece_random_heuristic (b : MaxRectsBin)
    (cut_piece : CutPieceWithId) (rng : Rng) : (Bool × MaxRectsBin) × Rng :=
  let (h, rng') := mr_random_heuristic rng
  (b.insert_cut_piece_with_heuristic cut_piece h, rng')

/-- MaxRectsBin::remove_cut_pieces: like the guillotine version but without
re-merging (the MaxRects free list is not disjoint). -/
def MaxRectsBin.remove_cut_pieces (b : MaxRectsBin)
    (targets : List UsedCutPiece) : MaxRectsBin × Nat :=
  let old_len := b.cut_pieces.length
  let s := targets.foldl (fun s t => remove_matching_loop t.id s.1.length s)
    (b.cut_pieces, b.free_rects)
  ({ b with cut_pieces := s.1, free_rects := s.2 }, old_len - s.1.length)

/-! ## Geometric invariants -/

/-- A rectangle lies inside a bin of the given dimensions (x, y are Nat, so
only the upper bounds are non-trivial). -/
def rect_inside (bin_width bin_length : Nat) (r : Rect) : Prop :=
  r.x + r.width ≤ bin_width ∧ r.y + r.length ≤ bin_length

instance (w l : Nat) (r : Rect) : Decidable (rect_inside w l r) := by
  unfold rect_inside; infer_instance

/-- A placed rectangle sits at the corner of a free rectangle and fits in it. -/
def corner_fit (r fr : Rect) : Prop :=
  r.x = fr.x ∧ r.y = fr.y ∧ r.width ≤ fr.width ∧ r.length ≤ fr.length

theorem corner_fit_inside {r fr : Rect} {W L : Nat}
    (hc : corner_fit r fr) (hi : rect_inside W L fr) : rect_inside W L r := by
  obtain ⟨hx, hy, hw, hl⟩ := hc
  obtain ⟨h1, h2⟩ := hi
  exact ⟨by omega, by omega⟩

theorem mem_swapRemove {l : List α} {i : Nat} {a : α}
    (h : a ∈ swapRemove l i) : a ∈ l := by
  unfold swapRemove at h
  cases hl : l.getLast? with
  | none => simp [hl] at h
  | some last =>
    rw [hl] at h
    have h1 : a ∈ (l.set i last) := (List.dropLast_sublist _).subset h
    rcases List.mem_or_eq_of_mem_set h1 with h2 | h2
    · exact h2
    · subst h2
      obtain ⟨ys, hys⟩ := List.getLast?_eq_some_iff.mp hl
      subst hys; simp

/-- The upright fit condition of spec section 4.1 / Rect::fit_cut_piece. -/
def upright_cond (fr : Rect) (pd : PatternDirection) (cp : CutPieceWithId) : Prop :=
  cp.pattern_direction = pd ∧ cp.width ≤ fr.width ∧ cp.length ≤ fr.length

/-- The rotated fit condition of spec section 4.1 / Rect::fit_cut_piece. -/
def rotated_cond (fr : Rect) (pd : PatternDirection) (cp : CutPieceWithId) : Prop :=
  cp.can_rotate = true ∧ cp.pattern_direction.rotated = pd ∧
    cp.length ≤ fr.width ∧ cp.width ≤ fr.length

instance (fr : Rect) (pd : PatternDirection) (cp : CutPieceWithId) :
    Decidable (upright_cond fr pd cp) := by
  unfold upright_cond; infer_instance

instance (fr : Rect) (pd : PatternDirection) (cp : CutPieceWithId) :
    Decidable (rotated_cond fr pd cp) := by
  unfold rotated_cond; infer_instance

theorem fit3_is_upright_dims {fr : Rect} {pd : PatternDirection} {cp : CutPieceWithId}
    {pr : Bool} (h : (fr.fit_cut_piece3 pd cp pr).is_upright = true) :
    cp.width ≤ fr.width ∧ cp.length ≤ fr.length := by
  dsimp only [Rect.fit_cut_piece3] at h
  split_ifs at h with h1 h2 h3 h4 h5 <;>
    simp_all [Fit.is_upright]

theorem fit3_is_rotated_dims {fr : Rect} {pd : PatternDirection} {cp : CutPieceWithId}
    {pr : Bool} (h : (fr.fit_cut_piece3 pd cp pr).is_rotated = true) :
    cp.length ≤ fr.width ∧ cp.width ≤ fr.length := by
  dsimp only [Rect.fit_cut_piece3] at h
  split_ifs at h with h1 h2 h3 h4 h5 <;>
    simp_all [Fit.is_rotated]

theorem fit3_ne_none_iff {fr : Rect} {pd : PatternDirection} {cp : CutPieceWithId}
    {pr : Bool} :
    fr.fit_cut_piece3 pd cp pr ≠ Fit.none ↔
      upright_cond fr pd cp ∨ rotated_cond fr pd cp := by
  unfold upright_cond rotated_cond
  dsimp only [Rect.fit_cut_piece3]
  split_ifs with h1 h2 h3 h4 h5 <;> simp_all

theorem fit2_ne_none_iff {fr : Rect} {pd : PatternDirection} {cp : CutPieceWithId} :
    fr.fit_cut_piece pd cp ≠ Fit.none ↔
      upright_cond fr pd cp ∨ rotated_cond fr pd cp := by
  unfold upright_cond rotated_cond
  dsimp only [Rect.fit_cut_piece]
  split_ifs with h1 h2 h3 h4 <;> simp_all

/-- Invariant carried by the guillotine placement scan: whenever a free index
has been chosen, the candidate rectangle corner-fits a free rectangle
associated with that index (Q abstracts the association). -/
def gsearch_inv (Q : Nat → Rect → Prop) (st : GSearchState) : Prop :=
  ∀ idx, st.free_index = some idx → ∃ fr, Q idx fr ∧ corner_fit st.best_rect fr

theorem find_placement_loop_inv (pd : PatternDirection) (cp : CutPieceWithId)
    (rc : FreeRectChoiceHeuristic) (pr : Bool) (Q : Nat → Rect → Prop) :
    ∀ (rects : List Rect) (i : Nat) (st : GSearchState),
      (∀ k fr, rects.get? k = some fr → Q (i + k) fr) →
      gsearch_inv Q st →
      gsearch_inv Q (find_placement_loop pd cp rc pr i rects st) := by
  intro rects
  induction rects with
  | nil => intro i st _ hst; simpa [find_placement_loop] using hst
  | cons fr rest ih =>
    intro i st hq hst
    have hQfr : Q i fr := by
      have := hq 0 fr (by simp)
      simpa using this
    have hqrest : ∀ k fr', rest.get? k = some fr' → Q (i + 1 + k) fr' := by
      intro k fr' hk
      have := hq (k + 1) fr' (by simpa using hk)
      have he : i + (k + 1) = i + 1 + k := by omega
      rwa [he] at this
    cases hfit : fr.fit_cut_piece3 pd cp pr with
    | uprightExact =>
      simp only [find_placement_loop, hfit]
      intro idx hidx
      simp only at hidx
      obtain rfl : i = idx := by simpa using hidx
      refine ⟨fr, hQfr, rfl, rfl, ?_, ?_⟩
      · exact (fit3_is_upright_dims (by rw [hfit]; rfl)).1
      · exact (fit3_is_upright_dims (by rw [hfit]; rfl)).2
    | rotatedExact =>
      simp only [find_placement_loop, hfit]
      intro idx hidx
      simp only at hidx
      obtain rfl : i = idx := by simpa using hidx
      refine ⟨fr, hQfr, rfl, rfl, ?_, ?_⟩
      · exact (fit3_is_rotated_dims (by rw [hfit]; rfl)).1
      · exact (fit3_is_rotated_dims (by rw [hfit]; rfl)).2
    | upright =>
      simp only [find_placement_loop, hfit]
      apply ih (i + 1) _ hqrest
      split_ifs with hsc
      · intro idx hidx
        obtain rfl : i = idx := by simpa using hidx
        refine ⟨fr, hQfr, rfl, rfl, ?_, ?_⟩
        · exact (fit3_is_upright_dims (by rw [hfit]; rfl)).1
        · exact (fit3_is_upright_dims (by rw [hfit]; rfl)).2
      · exact hst
    | rotated =>
      simp only [find_placement_loop, hfit]
      apply ih (i + 1) _ hqrest
      split_ifs with hsc
      · intro idx hidx
        obtain rfl : i = idx := by simpa using hidx
        refine ⟨fr, hQfr, rfl, rfl, ?_, ?_⟩
        · exact (fit3_is_rotated_dims (by rw [hfit]; rfl)).1
        · exact (fit3_is_rotated_dims (by rw [hfit]; rfl)).2
      · exact hst
    | none =>
      simp only [find_placement_loop, hfit]
      exact ih (i + 1) st hqrest hst

/-- A successful guillotine placement returns a rectangle that corner-fits
the free rectangle at the returned index. -/
theorem g_find_placement_corner_fit {b : GuillotineBin} {cp : CutPieceWithId}
    {rc : FreeRectChoiceHeuristic} {pr : Bool} {used : UsedCutPiece} {idx : Nat}
    (h : b.find_placement_for_cut_piece cp rc pr = some (used, idx)) :
    ∃ fr, b.free_rects.get? idx = some fr ∧ corner_fit used.rect fr := by
  unfold GuillotineBin.find_placement_for_cut_piece at h
  dsimp only at h
  have hinv := find_placement_loop_inv b.pattern_direction cp rc pr
    (fun k fr => b.free_rects.get? k = some fr) b.free_rects 0
    ⟨⟨0, 0, 0, 0⟩, Option.none, Fit.none, Option.none⟩
    (fun k fr hk => by simpa using hk)
    (fun idx hidx => by simp at hidx)
  cases hfi : (find_placement_loop b.pattern_direction cp rc pr 0 b.free_rects
      ⟨⟨0, 0, 0, 0⟩, Option.none, Fit.none, Option.none⟩).free_index with
  | none => rw [hfi] at h; simp at h
  | some index =>
    rw [hfi] at h
    simp only [Option.some.injEq, Prod.mk.injEq] at h
    obtain ⟨hused, hidx⟩ := h
    obtain ⟨fr, hQ, hcf⟩ := hinv index hfi
    subst hidx
    refine ⟨fr, hQ, ?_⟩
    rw [← hused]
    exact hcf

theorem split_along_axis_inside {W L bw : Nat} {fr r : Rect} (ax : SplitAxis)
    (hfr : rect_inside W L fr) (hc : corner_fit r fr) :
    ∀ q ∈ split_free_rect_along_axis bw fr r ax, rect_inside W L q := by
  intro q hq
  obtain ⟨hx, hy, hw, hl⟩ := hc
  obtain ⟨h1, h2⟩ := hfr
  cases ax <;>
    (dsimp only [split_free_rect_along_axis] at hq
     rcases List.mem_append.mp hq with hm | hm <;>
       (split_ifs at hm with hg <;> simp_all [rect_inside] <;> omega))

theorem split_by_heuristic_inside {W L bw : Nat} {fr r : Rect} (sm : SplitHeuristic)
    (hfr : rect_inside W L fr) (hc : corner_fit r fr) :
    ∀ q ∈ split_free_rect_by_heuristic bw fr r sm, rect_inside W L q := by
  intro q hq
  dsimp only [split_free_rect_by_heuristic] at hq
  exact split_along_axis_inside _ hfr hc q hq

theorem merge_step_inside {W L bw : Nat} {l : List Rect} {i j : Nat}
    (h : ∀ r ∈ l, rect_inside W L r) : ∀ r ∈ merge_step bw l i j, rect_inside W L r := by
  unfold merge_step
  cases hgi : l.get? i with
  | none => simpa using h
  | some ri =>
    cases hgj : l.get? j with
    | none => simpa using h
    | some rj =>
      have hri := h _ (List.get?_mem hgi)
      have hrj := h _ (List.get?_mem hgj)
      intro r hr
      dsimp only at hr
      split_ifs at hr with c1 c2 c3 c4 c5 c6 <;>
        first
        | exact h r hr
        | (rcases List.mem_or_eq_of_mem_set (mem_swapRemove hr) with hm | hm
           · exact h r hm
           · subst hm
             unfold rect_inside at *
             obtain ⟨a1, a2⟩ := hri
             obtain ⟨b1, b2⟩ := hrj
             constructor <;> simp <;> omega)

theorem merge_inner_inside {W L bw i : Nat} :
    ∀ (j : Nat) (l : List Rect), (∀ r ∈ l, rect_inside W L r) →
      ∀ r ∈ merge_inner bw i j l, rect_inside W L r := by
  intro j
  induction j with
  | zero => intro l h; simpa [merge_inner] using h
  | succ j ih =>
    intro l h
    rw [merge_inner]
    split_ifs with hj
    · exact h
    · exact ih _ (merge_step_inside h)

theorem merge_outer_inside {W L bw : Nat} :
    ∀ (n : Nat) (l : List Rect), (∀ r ∈ l, rect_inside W L r) →
      ∀ r ∈ merge_outer bw n l, rect_inside W L r := by
  intro n
  induction n with
  | zero => intro l h; simpa [merge_outer] using h
  | succ n ih =>
    intro l h
    rw [merge_outer]
    exact ih _ (merge_inner_inside _ _ h)

theorem merge_free_rects_inside {W L bw : Nat} {l : List Rect}
    (h : ∀ r ∈ l, rect_inside W L r) : ∀ r ∈ merge_free_rects bw l, rect_inside W L r :=
  merge_outer_inside _ _ h

/-- The containment invariant of a guillotine bin: all free rectangles and
all placed rectangles lie inside the bin. -/
def GuillotineBin.inv (b : GuillotineBin) : Prop :=
  (∀ r ∈ b.free_rects, rect_inside b.width b.length r) ∧
  (∀ p ∈ b.cut_pieces, rect_inside b.width b.length p.rect)

theorem g_new_inv (w l bw : Nat) (pd : PatternDirection) (price : Nat) :
    (GuillotineBin.new w l bw pd price).inv := by
  constructor
  · intro r hr
    simp only [GuillotineBin.new, List.mem_singleton] at hr
    subst hr
    exact ⟨by simp [GuillotineBin.new], by simp [GuillotineBin.new]⟩
  · intro p hp
    simp [GuillotineBin.new] at hp

theorem g_insert_inv {b : GuillotineBin} (cp : CutPieceWithId) (m : Bool)
    (rc : FreeRectChoiceHeuristic) (sm : SplitHeuristic) (rp : RotateCutPieceHeuristic)
    (hb : b.inv) : (b.insert_with_heuristics cp m rc sm rp).2.inv := by
  obtain ⟨hfree, hcut⟩ := hb
  unfold GuillotineBin.insert_with_heuristics
  dsimp only
  cases hp : b.find_placement_for_cut_piece cp rc
      (decide (rp = RotateCutPieceHeuristic.preferRotated)) with
  | none => exact ⟨hfree, hcut⟩
  | some p =>
    obtain ⟨used, idx⟩ := p
    obtain ⟨fr, hget, hcf⟩ := g_find_placement_corner_fit hp
    dsimp only
    rw [hget]
    have hfr_in := hfree fr (List.get?_mem hget)
    have hused_in : rect_inside b.width b.length used.rect := corner_fit_inside hcf hfr_in
    have hsplit : ∀ r ∈ swapRemove b.free_rects idx ++
        split_free_rect_by_heuristic b.blade_width fr used.rect sm,
        rect_inside b.width b.length r := by
      intro r hr
      rcases List.mem_append.mp hr with h | h
      · exact hfree r (mem_swapRemove h)
      · exact split_by_heuristic_inside sm hfr_in hcf r h
    constructor
    · intro r hr
      dsimp only at hr
      split_ifs at hr with hm
      · exact merge_free_rects_inside hsplit r hr
      · exact hsplit r hr
    · intro q hq
      dsimp only at hq
      rcases List.mem_append.mp hq with h | h
      · exact hcut q h
      · simp only [List.mem_singleton] at h
        subst h
        exact hused_in

theorem remove_matching_loop_inside {W L : Nat} (tid : Nat) :
    ∀ (n : Nat) (s : List UsedCutPiece × List Rect),
      (∀ p ∈ s.1, rect_inside W L p.rect) → (∀ r ∈ s.2, rect_inside W L r) →
      (∀ p ∈ (remove_matching_loop tid n s).1, rect_inside W L p.rect) ∧
      (∀ r ∈ (remove_matching_loop tid n s).2, rect_inside W L r) := by
  intro n
  induction n with
  | zero => intro s h1 h2; exact ⟨h1, h2⟩
  | succ n ih =>
    intro s h1 h2
    rw [remove_matching_loop]
    cases hg : s.1.get? n with
    | none => exact ih s h1 h2
    | some p =>
      dsimp only
      split_ifs with hid
      · refine ih _ ?_ ?_
        · intro q hq
          exact h1 q (List.mem_of_mem_eraseIdx hq)
        · intro r hr
          rcases List.mem_append.mp hr with hm | hm
          · exact h2 r hm
          · simp only [List.mem_singleton] at hm
            subst hm
            exact h1 p (List.get?_mem hg)
      · exact ih s h1 h2

theorem g_remove_inv {b : GuillotineBin} (targets : List UsedCutPiece)
    (hb : b.inv) : (b.remove_cut_pieces targets).1.inv := by
  obtain ⟨hfree, hcut⟩ := hb
  unfold GuillotineBin.remove_cut_pieces
  dsimp only
  have hfold : ∀ (ts : List UsedCutPiece) (s : List UsedCutPiece × List Rect),
      (∀ p ∈ s.1, rect_inside b.width b.length p.rect) →
      (∀ r ∈ s.2, rect_inside b.width b.length r) →
      (∀ p ∈ (ts.foldl (fun s t => remove_matching_loop t.id s.1.length s) s).1,
        rect_inside b.width b.length p.rect) ∧
      (∀ r ∈ (ts.foldl (fun s t => remove_matching_loop t.id s.1.length s) s).2,
        rect_inside b.width b.length r) := by
    intro ts
    induction ts with
    | nil => intro s h1 h2; exact ⟨h1, h2⟩
    | cons t rest ih =>
      intro s h1 h2
      have hstep := remove_matching_loop_inside t.id s.1.length s h1 h2
      exact ih _ hstep.1 hstep.2
  have hres := hfold targets (b.cut_pieces, b.free_rects) hcut hfree
  exact ⟨merge_free_rects_inside hres.2, hres.1⟩

/-- Guillotine bin states reachable by the operations the optimizer performs
on bins: creation from stock dimensions, insertion with any heuristic (random
heuristics included, since they dispatch to the same insert), and removal. -/
inductive GReachable : GuillotineBin → Prop
  | new (w l bw : Nat) (pd : PatternDirection) (price : Nat) :
      GReachable (GuillotineBin.new w l bw pd price)
  | insert (b : GuillotineBin) (cp : CutPieceWithId) (m : Bool)
      (rc : FreeRectChoiceHeuristic) (sm : SplitHeuristic) (rp : RotateCutPieceHeuristic) :
      GReachable b → GReachable (b.insert_with_heuristics cp m rc sm rp).2
  | remove (b : GuillotineBin) (targets : List UsedCutPiece) :
      GReachable b → GReachable (b.remove_cut_pieces targets).1

theorem g_reachable_inv {b : GuillotineBin} (h : GReachable b) : b.inv := by
  induction h with
  | new w l bw pd price => exact g_new_inv w l bw pd price
  | insert b cp m rc sm rp _ ih => exact g_insert_inv cp m rc sm rp ih
  | remove b targets _ ih => exact g_remove_inv targets ih

/-! ## MaxRects invariants -/

theorem foldl_option_inside {σ : Type} (proj : σ → Rect)
    (step : Option σ → Rect → Option σ) {W L : Nat}
    (hstep : ∀ best fr, rect_inside W L fr →
      (∀ s, best = some s → rect_inside W L (proj s)) →
      ∀ s, step best fr = some s → rect_inside W L (proj s)) :
    ∀ (rects : List Rect) (best : Option σ),
      (∀ fr ∈ rects, rect_inside W L fr) →
      (∀ s, best = some s → rect_inside W L (proj s)) →
      ∀ s, rects.foldl step best = some s → rect_inside W L (proj s) := by
  intro rects
  induction rects with
  | nil => intro best _ hbest s hs; exact hbest s hs
  | cons fr rest ih =>
    intro best hin hbest s hs
    have hfr : rect_inside W L fr := hin fr (by simp)
    have hrest : ∀ q ∈ rest, rect_inside W L q := fun q hq => hin q (by simp [hq])
    exact ih (step best fr) hrest (hstep best fr hfr hbest) s hs

theorem mr_bl_step_inside {W L : Nat} (pd : PatternDirection) (cp : CutPieceWithId)
    (pr : Bool) : ∀ (best : Option (Rect × Fit × Nat × Nat)) (fr : Rect),
    rect_inside W L fr →
    (∀ s, best = some s → rect_inside W L s.1) →
    ∀ s, mr_bl_step pd cp pr best fr = some s → rect_inside W L s.1 := by
  intro best fr hfr hbest s hs
  dsimp only [mr_bl_step] at hs
  split_ifs at hs with h1 h2 h3 h4 <;>
    first
    | exact hbest s hs
    | (rw [Option.some_inj] at hs
       subst hs
       refine @corner_fit_inside _ fr W L ⟨rfl, rfl, ?_, ?_⟩ hfr <;>
         first
         | exact (fit3_is_upright_dims h1).1
         | exact (fit3_is_upright_dims h1).2
         | exact (fit3_is_rotated_dims h3).1
         | exact (fit3_is_rotated_dims h3).2)

theorem mr_bssf_step_inside {W L : Nat} (pd : PatternDirection) (cp : CutPieceWithId)
    (pr : Bool) : ∀ (best : Option (Rect × Fit × Nat × Nat)) (fr : Rect),
    rect_inside W L fr →
    (∀ s, best = some s → rect_inside W L s.1) →
    ∀ s, mr_bssf_step pd cp pr best fr = some s → rect_inside W L s.1 := by
  intro best fr hfr hbest s hs
  dsimp only [mr_bssf_step] at hs
  split_ifs at hs with h1 h2 h3 h4 <;>
    first
    | exact hbest s hs
    | (rw [Option.some_inj] at hs
       subst hs
       refine @corner_fit_inside _ fr W L ⟨rfl, rfl, ?_, ?_⟩ hfr <;>
         first
         | exact (fit3_is_upright_dims h1).1
         | exact (fit3_is_upright_dims h1).2
         | exact (fit3_is_rotated_dims h3).1
         | exact (fit3_is_rotated_dims h3).2)

theorem mr_blsf_step_inside {W L : Nat} (pd : PatternDirection) (cp : CutPieceWithId)
    (pr : Bool) : ∀ (best : Option (Rect × Fit × Nat × Nat)) (fr : Rect),
    rect_inside W L fr →
    (∀ s, best = some s → rect_inside W L s.1) →
    ∀ s, mr_blsf_step pd cp pr best fr = some s → rect_inside W L s.1 := by
  intro best fr hfr hbest s hs
  dsimp only [mr_blsf_step] at hs
  split_ifs at hs with h1 h2 h3 h4 <;>
    first
    | exact hbest s hs
    | (rw [Option.some_inj] at hs
       subst hs
       refine @corner_fit_inside _ fr W L ⟨rfl, rfl, ?_, ?_⟩ hfr <;>
         first
         | exact (fit3_is_upright_dims h1).1
         | exact (fit3_is_upright_dims h1).2
         | exact (fit3_is_rotated_dims h3).1
         | exact (fit3_is_rotated_dims h3).2)

theorem mr_baf_step_inside {W L : Nat} (pd : PatternDirection) (cp : CutPieceWithId)
    (pr : Bool) : ∀ (best : Option (Rect × Fit × Nat × Nat)) (fr : Rect),
    rect_inside W L fr →
    (∀ s, best = some s → rect_inside W L s.1) →
    ∀ s, mr_baf_step pd cp pr best fr = some s → rect_inside W L s.1 := by
  intro best fr hfr hbest s hs
  dsimp only [mr_baf_step] at hs
  split_ifs at hs with h0 h1 h2 h3 h4 <;>
    first
    | exact hbest s hs
    | (rw [Option.some_inj] at hs
       subst hs
       refine @corner_fit_inside _ fr W L ⟨rfl, rfl, ?_, ?_⟩ hfr <;>
         first
         | exact (fit3_is_upright_dims h1).1
         | exact (fit3_is_upright_dims h1).2
         | exact (fit3_is_rotated_dims h3).1
         | exact (fit3_is_rotated_dims h3).2)

theorem mr_cp_step_inside {W L : Nat} (bw bl : Nat) (pieces : List UsedCutPiece)
    (pd : PatternDirection) (cp : CutPieceWithId) (pr : Bool) :
    ∀ (best : Option (Rect × Fit × Nat)) (fr : Rect),
    rect_inside W L fr →
    (∀ s, best = some s → rect_inside W L s.1) →
    ∀ s, mr_cp_step bw bl pieces pd cp pr best fr = some s → rect_inside W L s.1 := by
  intro best fr hfr hbest s hs
  dsimp only [mr_cp_step] at hs
  split_ifs at hs with h1 h2 h3 h4 <;>
    first
    | exact hbest s hs
    | (rw [Option.some_inj] at hs
       subst hs
       refine @corner_fit_inside _ fr W L ⟨rfl, rfl, ?_, ?_⟩ hfr <;>
         first
         | exact (fit3_is_upright_dims h1).1
         | exact (fit3_is_upright_dims h1).2
         | exact (fit3_is_rotated_dims h3).1
         | exact (fit3_is_rotated_dims h3).2)

/-- A successful MaxRects placement returns a rectangle inside the bin,
whatever the choice rule, provided all free rectangles are inside. -/
theorem mr_find_placement_inside {b : MaxRectsBin} {cp : CutPieceWithId}
    {rc : MRFreeRectChoiceHeuristic} {pr : Bool} {r : Rect} {rot : Bool}
    (hfree : ∀ fr ∈ b.free_rects, rect_inside b.width b.length fr)
    (h : b.find_placement_for_cut_piece cp rc pr = some (r, rot)) :
    rect_inside b.width b.length r := by
  unfold MaxRectsBin.find_placement_for_cut_piece at h
  cases rc <;> dsimp only at h
  case bottomLeftRule =>
    cases hb : mr_find_bottom_left b.pattern_direction cp pr b.free_rects Option.none with
    | none => rw [hb] at h; simp at h
    | some s =>
      rw [hb] at h
      simp only [Option.map_some', Option.some.injEq, Prod.mk.injEq] at h
      have := foldl_option_inside (fun s => s.1) _ (mr_bl_step_inside b.pattern_direction cp pr)
        b.free_rects Option.none hfree (by intro s hs; cases hs) s hb
      rw [← h.1]
      exact this
  case bestShortSideFit =>
    cases hb : mr_find_best_short_side b.pattern_direction cp pr b.free_rects Option.none with
    | none => rw [hb] at h; simp at h
    | some s =>
      rw [hb] at h
      simp only [Option.map_some', Option.some.injEq, Prod.mk.injEq] at h
      have := foldl_option_inside (fun s => s.1) _ (mr_bssf_step_inside b.pattern_direction cp pr)
        b.free_rects Option.none hfree (by intro s hs; cases hs) s hb
      rw [← h.1]
      exact this
  case bestLongSideFit =>
    cases hb : mr_find_best_long_side b.pattern_direction cp pr b.free_rects Option.none with
    | none => rw [hb] at h; simp at h
    | some s =>
      rw [hb] at h
      simp only [Option.map_some', Option.some.injEq, Prod.mk.injEq] at h
      have := foldl_option_inside (fun s => s.1) _ (mr_blsf_step_inside b.pattern_direction cp pr)
        b.free_rects Option.none hfree (by intro s hs; cases hs) s hb
      rw [← h.1]
      exact this
  case bestAreaFit =>
    cases hb : mr_find_best_area b.pattern_direction cp pr b.free_rects Option.none with
    | none => rw [hb] at h; simp at h
    | some s =>
      rw [hb] at h
      simp only [Option.map_some', Option.some.injEq, Prod.mk.injEq] at h
      have := foldl_option_inside (fun s => s.1) _ (mr_baf_step_inside b.pattern_direction cp pr)
        b.free_rects Option.none hfree (by intro s hs; cases hs) s hb
      rw [← h.1]
      exact this
  case contactPointRule =>
    cases hb : mr_find_contact_point b.width b.length b.cut_pieces b.pattern_direction cp pr
        b.free_rects Option.none with
    | none => rw [hb] at h; simp at h
    | some s =>
      rw [hb] at h
      simp only [Option.map_some', Option.some.injEq, Prod.mk.injEq] at h
      have := foldl_option_inside (fun s => s.1) _
        (mr_cp_step_inside b.width b.length b.cut_pieces b.pattern_direction cp pr)
        b.free_rects Option.none hfree (by intro s hs; cases hs) s hb
      rw [← h.1]
      exact this

theorem mr_split_free_rect_inside {W L bw : Nat} {l : List Rect} {idx : Nat} {r0 : Rect}
    (h : ∀ r ∈ l, rect_inside W L r) :
    ∀ r ∈ mr_split_free_rect W L bw l idx r0, rect_inside W L r := by
  unfold mr_split_free_rect
  cases hg : l.get? idx with
  | none => simpa using h
  | some free_rect =>
    have hfr := h _ (List.get?_mem hg)
    obtain ⟨f1, f2⟩ := hfr
    dsimp only
    intro r hr
    split_ifs at hr with hno c1 c2 c3 c4 c5 c6
    all_goals
      first
      | exact h r hr
      | (have hmem := mem_swapRemove hr
         rcases List.mem_append.mp hmem with hm | hm
         · exact h r hm
         · simp only [List.mem_append, List.mem_singleton, List.not_mem_nil, or_false,
             false_or, List.append_nil, List.nil_append] at hm
           try
             first
             | exact hm.elim
             | ((rcases hm with (rfl | rfl) | (rfl | rfl)) <;>
                 (refine ⟨?_, ?_⟩ <;> dsimp only <;> omega)))

theorem mr_split_loop_inside {W L bw : Nat} {r0 : Rect} :
    ∀ (n : Nat) (l : List Rect), (∀ r ∈ l, rect_inside W L r) →
      ∀ r ∈ mr_split_loop W L bw r0 n l, rect_inside W L r := by
  intro n
  induction n with
  | zero => intro l h; simpa [mr_split_loop] using h
  | succ n ih =>
    intro l h
    rw [mr_split_loop]
    exact ih _ (mr_split_free_rect_inside h)

theorem prune_step_inside {W L : Nat} {l : List Rect} {i j : Nat}
    (h : ∀ r ∈ l, rect_inside W L r) : ∀ r ∈ prune_step l i j, rect_inside W L r := by
  unfold prune_step
  cases hgi : l.get? i with
  | none => simpa using h
  | some ri =>
    cases hgj : l.get? j with
    | none => simpa using h
    | some rj =>
      dsimp only
      intro r hr
      split_ifs at hr <;>
        first
        | exact h r hr
        | exact h r (mem_swapRemove hr)

theorem prune_inner_inside {W L i : Nat} :
    ∀ (j : Nat) (l : List Rect), (∀ r ∈ l, rect_inside W L r) →
      ∀ r ∈ prune_inner i j l, rect_inside W L r := by
  intro j
  induction j with
  | zero => intro l h; simpa [prune_inner] using h
  | succ j ih =>
    intro l h
    rw [prune_inner]
    split_ifs with hj
    · exact h
    · exact ih _ (prune_step_inside h)

theorem prune_outer_inside {W L : Nat} :
    ∀ (n : Nat) (l : List Rect), (∀ r ∈ l, rect_inside W L r) →
      ∀ r ∈ prune_outer n l, rect_inside W L r := by
  intro n
  induction n with
  | zero => intro l h; simpa [prune_outer] using h
  | succ n ih =>
    intro l h
    rw [prune_outer]
    exact ih _ (prune_inner_inside _ _ h)

theorem prune_free_rects_inside {W L : Nat} {l : List Rect}
    (h : ∀ r ∈ l, rect_inside W L r) : ∀ r ∈ prune_free_rects l, rect_inside W L r :=
  prune_outer_inside _ _ h

/-- The containment invariant of a MaxRects bin. -/
def MaxRectsBin.inv (b : MaxRectsBin) : Prop :=
  (∀ r ∈ b.free_rects, rect_inside b.width b.length r) ∧
  (∀ p ∈ b.cut_pieces, rect_inside b.width b.length p.rect)

theorem mr_new_inv (w l bw : Nat) (pd : PatternDirection) (price : Nat) :
    (MaxRectsBin.new w l bw pd price).inv := by
  constructor
  · intro r hr
    simp only [MaxRectsBin.new, List.mem_singleton] at hr
    subst hr
    exact ⟨by simp [MaxRectsBin.new], by simp [MaxRectsBin.new]⟩
  · intro p hp
    simp [MaxRectsBin.new] at hp

theorem mr_insert_inv {b : MaxRectsBin} (cp : CutPieceWithId)
    (rc : MRFreeRectChoiceHeuristic) (rp : RotateCutPieceHeuristic)
    (hb : b.inv) : (b.insert_with_heuristics cp rc rp).2.inv := by
  obtain ⟨hfree, hcut⟩ := hb
  unfold MaxRectsBin.insert_with_heuristics
  dsimp only
  cases hp : b.find_placement_for_cut_piece cp rc
      (decide (rp = RotateCutPieceHeuristic.preferRotated)) with
  | none => exact ⟨hfree, hcut⟩
  | some p =>
    obtain ⟨best_rect, rot⟩ := p
    have hbr : rect_inside b.width b.length best_rect := mr_find_placement_inside hfree hp
    dsimp only
    constructor
    · intro r hr
      dsimp only at hr
      exact prune_free_rects_inside (mr_split_loop_inside _ _ hfree) r hr
    · intro q hq
      dsimp only at hq
      rcases List.mem_append.mp hq with hm | hm
      · exact hcut q hm
      · simp only [List.mem_singleton] at hm
        subst hm
        exact hbr

theorem mr_remove_inv {b : MaxRectsBin} (targets : List UsedCutPiece)
    (hb : b.inv) : (b.remove_cut_pieces targets).1.inv := by
  obtain ⟨hfree, hcut⟩ := hb
  unfold MaxRectsBin.remove_cut_pieces
  dsimp only
  have hfold : ∀ (ts : List UsedCutPiece) (s : List UsedCutPiece × List Rect),
      (∀ p ∈ s.1, rect_inside b.width b.length p.rect) →
      (∀ r ∈ s.2, rect_inside b.width b.length r) →
      (∀ p ∈ (ts.foldl (fun s t => remove_matching_loop t.id s.1.length s) s).1,
        rect_inside b.width b.length p.rect) ∧
      (∀ r ∈ (ts.foldl (fun s t => remove_matching_loop t.id s.1.length s) s).2,
        rect_inside b.width b.length r) := by
    intro ts
    induction ts with
    | nil => intro s h1 h2; exact ⟨h1, h2⟩
    | cons t rest ih =>
      intro s h1 h2
      have hstep := remove_matching_loop_inside t.id s.1.length s h1 h2
      exact ih _ hstep.1 hstep.2
  have hres := hfold targets (b.cut_pieces, b.free_rects) hcut hfree
  exact ⟨hres.2, hres.1⟩

/-- MaxRects bin states reachable by the operations the optimizer performs. -/
inductive MReachable : MaxRectsBin → Prop
  | new (w l bw : Nat) (pd : PatternDirection) (price : Nat) :
      MReachable (MaxRectsBin.new w l bw pd price)
  | insert (b : MaxRectsBin) (cp : CutPieceWithId)
      (rc : MRFreeRectChoiceHeuristic) (rp : RotateCutPieceHeuristic) :
      MReachable b → MReachable (b.insert_with_heuristics cp rc rp).2
  | remove (b : MaxRectsBin) (targets : List UsedCutPiece) :
      MReachable b → MReachable (b.remove_cut_pieces targets).1

theorem mr_reachable_inv {b : MaxRectsBin} (h : MReachable b) : b.inv := by
  induction h with
  | new w l bw pd price => exact mr_new_inv w l bw pd price
  | insert b cp rc rp _ ih => exact mr_insert_inv cp rc rp ih
  | remove b targets _ ih => exact mr_remove_inv targets ih

/-! ## Claim C1 -/

/-- C1: for every reachable guillotine or MaxRects bin state (created from a
stock piece's dimensions and evolved by insertions with any heuristic and by
removals), every placed cut piece's rectangle lies entirely inside the stock
rectangle: x ≥ 0 and y ≥ 0 hold because coordinates are Nat, and
x + width ≤ stock width, y + length ≤ stock length are proved here. -/
theorem C1_placed_pieces_inside_stock :
    (∀ b : GuillotineBin, GReachable b → ∀ p ∈ b.cut_pieces,
      p.rect.x + p.rect.width ≤ b.width ∧ p.rect.y + p.rect.length ≤ b.length) ∧
    (∀ b : MaxRectsBin, MReachable b → ∀ p ∈ b.cut_pieces,
      p.rect.x + p.rect.width ≤ b.width ∧ p.rect.y + p.rect.length ≤ b.length) := by
  constructor
  · intro b hb p hp
    exact (g_reachable_inv hb).2 p hp
  · intro b hb p hp
    exact (mr_reachable_inv hb).2 p hp

/-- Witness for C1 at a concrete input: the rotate-to-fit scenario (stock
10x11, demand 11x10 rotatable) on both bin kinds. -/
theorem C1_placed_pieces_inside_stock_witness :
    (∀ p ∈ ((GuillotineBin.new 10 11 1 PatternDirection.none 0).insert_with_heuristics
        ⟨0, some 1, 11, 10, PatternDirection.none, true⟩ true
        FreeRectChoiceHeuristic.bestAreaFit SplitHeuristic.shorterLeftoverAxis
        RotateCutPieceHeuristic.preferUpright).2.cut_pieces,
      p.rect.x + p.rect.width ≤
          ((GuillotineBin.new 10 11 1 PatternDirection.none 0).insert_with_heuristics
            ⟨0, some 1, 11, 10, PatternDirection.none, true⟩ true
            FreeRectChoiceHeuristic.bestAreaFit SplitHeuristic.shorterLeftoverAxis
            RotateCutPieceHeuristic.preferUpright).2.width ∧
        p.rect.y + p.rect.length ≤
          ((GuillotineBin.new 10 11 1 PatternDirection.none 0).insert_with_heuristics
            ⟨0, some 1, 11, 10, PatternDirection.none, true⟩ true
            FreeRectChoiceHeuristic.bestAreaFit SplitHeuristic.shorterLeftoverAxis
            RotateCutPieceHeuristic.preferUpright).2.length) ∧
    (∀ p ∈ ((MaxRectsBin.new 10 11 1 PatternDirection.none 0).insert_with_heuristics
        ⟨0, some 1, 11, 10, PatternDirection.none, true⟩
        MRFreeRectChoiceHeuristic.bestAreaFit RotateCutPieceHeuristic.preferUpright).2.cut_pieces,
      p.rect.x + p.rect.width ≤
          ((MaxRectsBin.new 10 11 1 PatternDirection.none 0).insert_with_heuristics
            ⟨0, some 1, 11, 10, PatternDirection.none, true⟩
            MRFreeRectChoiceHeuristic.bestAreaFit RotateCutPieceHeuristic.preferUpright).2.width ∧
        p.rect.y + p.rect.length ≤
          ((MaxRectsBin.new 10 11 1 PatternDirection.none 0).insert_with_heuristics
            ⟨0, some 1, 11, 10, PatternDirection.none, true⟩
            MRFreeRectChoiceHeuristic.bestAreaFit RotateCutPieceHeuristic.preferUpright).2.length) :=
  ⟨C1_placed_pieces_inside_stock.1 _
      (GReachable.insert _ _ _ _ _ _ (GReachable.new 10 11 1 PatternDirection.none 0)),
   C1_placed_pieces_inside_stock.2 _
      (MReachable.insert _ _ _ _ (MReachable.new 10 11 1 PatternDirection.none 0))⟩

/-! ## Claim C10 -/

theorem g_insert_failed_eq {b : GuillotineBin} {cp : CutPieceWithId} {m : Bool}
    {rc : FreeRectChoiceHeuristic} {sm : SplitHeuristic} {rp : RotateCutPieceHeuristic}
    (h : (b.insert_with_heuristics cp m rc sm rp).1 = false) :
    (b.insert_with_heuristics cp m rc sm rp).2 = b := by
  unfold GuillotineBin.insert_with_heuristics at *
  dsimp only at *
  cases hp : b.find_placement_for_cut_piece cp rc
      (decide (rp = RotateCutPieceHeuristic.preferRotated)) with
  | none => rfl
  | some p =>
    obtain ⟨used, idx⟩ := p
    rw [hp] at h
    dsimp only at h ⊢
    cases hg : b.free_rects.get? idx with
    | none => rfl
    | some fr =>
      rw [hg] at h
      simp at h

theorem mr_insert_failed_eq {b : MaxRectsBin} {cp : CutPieceWithId}
    {rc : MRFreeRectChoiceHeuristic} {rp : RotateCutPieceHeuristic}
    (h : (b.insert_with_heuristics cp rc rp).1 = false) :
    (b.insert_with_heuristics cp rc rp).2 = b := by
  unfold MaxRectsBin.insert_with_heuristics at *
  dsimp only at *
  cases hp : b.find_placement_for_cut_piece cp rc
      (decide (rp = RotateCutPieceHeuristic.preferRotated)) with
  | none => rfl
  | some p =>
    obtain ⟨best_rect, rot⟩ := p
    rw [hp] at h
    simp at h

/-- C10: when insert_cut_piece_with_heuristic returns false, the bin is left
completely unchanged (free-rectangle list and placed-piece list included),
for both the guillotine and the MaxRects bin. -/
theorem C10_failed_insert_leaves_bin_unchanged :
    (∀ (b : GuillotineBin) (cp : CutPieceWithId)
      (h : FreeRectChoiceHeuristic × SplitHeuristic × RotateCutPieceHeuristic),
      (b.insert_cut_piece_with_heuristic cp h).1 = false →
      (b.insert_cut_piece_with_heuristic cp h).2 = b) ∧
    (∀ (b : MaxRectsBin) (cp : CutPieceWithId)
      (h : MRFreeRectChoiceHeuristic × RotateCutPieceHeuristic),
      (b.insert_cut_piece_with_heuristic cp h).1 = false →
      (b.insert_cut_piece_with_heuristic cp h).2 = b) := by
  constructor
  · intro b cp h hfail
    exact g_insert_failed_eq hfail
  · intro b cp h hfail
    exact mr_insert_failed_eq hfail

/-- Witness for C10 at a concrete input: an 11x10 piece that may not rotate
fails to insert into a 10x11 bin and leaves it unchanged, on both bin kinds. -/
theorem C10_failed_insert_leaves_bin_unchanged_witness :
    ((GuillotineBin.new 10 11 1 PatternDirection.none 0).insert_cut_piece_with_heuristic
        ⟨0, some 1, 11, 10, PatternDirection.none, false⟩
        (FreeRectChoiceHeuristic.bestAreaFit, SplitHeuristic.shorterLeftoverAxis,
          RotateCutPieceHeuristic.preferUpright)).1 = false ∧
    ((GuillotineBin.new 10 11 1 PatternDirection.none 0).insert_cut_piece_with_heuristic
        ⟨0, some 1, 11, 10, PatternDirection.none, false⟩
        (FreeRectChoiceHeuristic.bestAreaFit, SplitHeuristic.shorterLeftoverAxis,
          RotateCutPieceHeuristic.preferUpright)).2 = GuillotineBin.new 10 11 1 PatternDirection.none 0 ∧
    ((MaxRectsBin.new 10 11 1 PatternDirection.none 0).insert_cut_piece_with_heuristic
        ⟨0, some 1, 11, 10, PatternDirection.none, false⟩
        (MRFreeRectChoiceHeuristic.bestAreaFit, RotateCutPieceHeuristic.preferUpright)).1 = false ∧
    ((MaxRectsBin.new 10 11 1 PatternDirection.none 0).insert_cut_piece_with_heuristic
        ⟨0, some 1, 11, 10, PatternDirection.none, false⟩
        (MRFreeRectChoiceHeuristic.bestAreaFit, RotateCutPieceHeuristic.preferUpright)).2 =
      MaxRectsBin.new 10 11 1 PatternDirection.none 0 :=
  ⟨by rfl,
   C10_failed_insert_leaves_bin_unchanged.1 _ _ _ (by rfl),
   by rfl,
   C10_failed_insert_leaves_bin_unchanged.2 _ _ _ (by rfl)⟩

/-! ## Claim C5 -/

/-- C5 counterexample: a 5x6 rotatable piece in a 10x10 free rectangle with
direction None admits both a non-exact upright and a non-exact rotated
placement.  The claim says the boolean prefer_rotated picks between them
(Rotated when prefer_rotated holds, as in the spec-modelled classification
Rect.fit_cut_piece3), but the source's Rect::fit_cut_piece takes no such
flag and always returns Upright here. -/
theorem C5_counterexample :
    Rect.fit_cut_piece ⟨0, 0, 10, 10⟩ PatternDirection.none
        ⟨0, Option.none, 5, 6, PatternDirection.none, true⟩ = Fit.upright ∧
    Rect.fit_cut_piece3 ⟨0, 0, 10, 10⟩ PatternDirection.none
        ⟨0, Option.none, 5, 6, PatternDirection.none, true⟩ true = Fit.rotated ∧
    Fit.upright ≠ Fit.rotated := by
  refine ⟨by decide, by decide, by decide⟩

/-- C5 as amended: the upright and rotated options are considered under
exactly the stated conditions, an exact upright fit is reported as such, and
the classification is None exactly when neither option exists; but the
classification takes no prefer_rotated flag — when both options exist the
upright branch always wins. -/
theorem C5_fit_classification (F : Rect) (pd : PatternDirection) (cp : CutPieceWithId) :
    ((F.fit_cut_piece pd cp).is_upright = true → upright_cond F pd cp) ∧
    ((F.fit_cut_piece pd cp).is_rotated = true →
      rotated_cond F pd cp ∧ ¬ upright_cond F pd cp) ∧
    (F.fit_cut_piece pd cp ≠ Fit.none ↔ upright_cond F pd cp ∨ rotated_cond F pd cp) ∧
    (upright_cond F pd cp → (F.fit_cut_piece pd cp).is_upright = true) ∧
    (F.fit_cut_piece pd cp = Fit.uprightExact ↔
      cp.pattern_direction = pd ∧ cp.width = F.width ∧ cp.length = F.length) := by
  refine ⟨?_, ?_, fit2_ne_none_iff, ?_, ?_⟩ <;>
    (try simp only [upright_cond, rotated_cond]) <;>
    (dsimp only [Rect.fit_cut_piece]
     split_ifs with h1 h2 h3 h4 <;> simp_all [Fit.is_upright, Fit.is_rotated])

/-- Witness for C5's amended classification at the counterexample input. -/
theorem C5_fit_classification_witness :
    upright_cond ⟨0, 0, 10, 10⟩ PatternDirection.none
        ⟨0, Option.none, 5, 6, PatternDirection.none, true⟩ ∧
    (Rect.fit_cut_piece ⟨0, 0, 10, 10⟩ PatternDirection.none
        ⟨0, Option.none, 5, 6, PatternDirection.none, true⟩).is_upright = true :=
  ⟨by decide,
   (C5_fit_classification ⟨0, 0, 10, 10⟩ PatternDirection.none
      ⟨0, Option.none, 5, 6, PatternDirection.none, true⟩).2.2.2.1 (by decide)⟩

/-! ## Claim C8 -/

/-- The split rule of spec section 4.2 as the claim states it: the horizontal
choice per heuristic over the leftovers w = F.w − p.w and h = F.l − p.l, the
kerf subtracted from the far side of each remainder, and a remainder whose
dimension does not exceed the kerf discarded as degenerate. -/
def split_spec (blade_width : Nat) (free_rect rect : Rect)
    (method : SplitHeuristic) : List Rect :=
  let w := free_rect.width - rect.width
  let h := free_rect.length - rect.length
  let horizontal : Bool := match method with
    | .shorterLeftoverAxis => decide (w ≤ h)
    | .longerLeftoverAxis => decide (w > h)
    | .minimizeArea => decide (rect.width * h > w * rect.length)
    | .maximizeArea => decide (rect.width * h ≤ w * rect.length)
    | .shorterAxis => decide (free_rect.width ≤ free_rect.length)
    | .longerAxis => decide (free_rect.width > free_rect.length)
  let bottom_width := if horizontal then free_rect.width else rect.width
  let right_length := if horizontal then rect.length else free_rect.length
  (if h > blade_width ∧ bottom_width > 0 then
    [⟨free_rect.x, free_rect.y + rect.length + blade_width, bottom_width, h - blade_width⟩]
  else []) ++
  (if w > blade_width ∧ right_length > 0 then
    [⟨free_rect.x + rect.width + blade_width, free_rect.y, w - blade_width, right_length⟩]
  else [])

theorem split_along_if_eq (bw : Nat) (F p : Rect) (H : Bool) :
    split_free_rect_along_axis bw F p (if H then SplitAxis.horizontal else SplitAxis.vertical) =
      (if F.length - p.length > bw ∧ (if H then F.width else p.width) > 0 then
        [⟨F.x, F.y + p.length + bw, if H then F.width else p.width,
          (F.length - p.length) - bw⟩]
      else []) ++
      (if F.width - p.width > bw ∧ (if H then p.length else F.length) > 0 then
        [⟨F.x + p.width + bw, F.y, (F.width - p.width) - bw,
          if H then p.length else F.length⟩]
      else []) := by
  cases H <;>
    (dsimp only [split_free_rect_along_axis]
     simp only [Bool.false_eq_true, if_false, if_true]
     split_ifs <;> first | rfl | omega)

/-- C8: the guillotine split behaves exactly as the claim describes — the
source's split_free_rect_by_heuristic equals the declarative split_spec for
every blade width, free rectangle, placed rectangle and split heuristic. -/
theorem C8_split_rule (blade_width : Nat) (free_rect rect : Rect)
    (method : SplitHeuristic) :
    split_free_rect_by_heuristic blade_width free_rect rect method =
      split_spec blade_width free_rect rect method := by
  unfold split_free_rect_by_heuristic split_spec
  dsimp only
  rw [split_along_if_eq]

/-! ## Optimizer unit (src/lib.rs), instantiated at the guillotine bin.
    The source's OptimizerUnit is generic over the Bin trait; the claims are
    about its two instantiations, embedded here side by side.  This revision
    of lib.rs has no stock prices or quantities, so Bin::new is called with
    price 0 and the stock budget is unlimited. -/

structure GOptimizerUnit where
  bins : List GuillotineBin
  possible_stock_pieces : List StockPiece
  blade_width : Nat

/-- The bins loop of OptimizerUnit::first_fit_with_heuristic: try every
existing bin in order; each visited bin is replaced by its post-call state
(unchanged on failure); on the first success the remaining bins are kept. -/
def g_bins_first_fit_h (h : FreeRectChoiceHeuristic × SplitHeuristic × RotateCutPieceHeuristic)
    (cp : CutPieceWithId) : List GuillotineBin → Option (List GuillotineBin)
  | [] => Option.none
  | b :: rest =>
    let r := b.insert_cut_piece_with_heuristic cp h
    if r.1 then some (r.2 :: rest)
    else (g_bins_first_fit_h h cp rest).map (fun rest' => r.2 :: rest')

/-- The bins loop of OptimizerUnit::first_fit_random_heuristics. -/
def g_bins_first_fit_rnd (cp : CutPieceWithId) :
    List GuillotineBin → Rng → Option (List GuillotineBin) × Rng
  | [], rng => (Option.none, rng)
  | b :: rest, rng =>
    let (r, rng1) := b.insert_cut_piece_random_heuristic cp rng
    if r.1 then (some (r.2 :: rest), rng1)
    else
      let (res, rng2) := g_bins_first_fit_rnd cp rest rng1
      (res.map (fun rest' => r.2 :: rest'), rng2)

/-- OptimizerUnit::add_to_new_bin: filter the stock pieces that fit, choose
one at random (rand's choose draws only from a non-empty slice), open a new
bin and insert with a random heuristic. -/
def g_add_to_new_bin (u : GOptimizerUnit) (cp : CutPieceWithId) (rng : Rng) :
    (Bool × GOptimizerUnit) × Rng :=
  let possible := u.possible_stock_pieces.filter (fun sp => sp.fits_cut_piece cp)
  if possible.length = 0 then ((false, u), rng)
  else
    let (k, rng1) := rng.next possible.length
    match possible.get? k with
    | some sp =>
      let bin := GuillotineBin.new sp.width sp.length u.blade_width sp.pattern_direction 0
      let (r, rng2) := bin.insert_cut_piece_random_heuristic cp rng1
      if r.1 then ((true, { u with bins := u.bins ++ [r.2] }), rng2)
      else ((false, u), rng2)
    | Option.none => ((false, u), rng1)

/-- OptimizerUnit::first_fit_with_heuristic. -/
def g_first_fit_with_heuristic (u : GOptimizerUnit) (cp : CutPieceWithId)
    (h : FreeRectChoiceHeuristic × SplitHeuristic × RotateCutPieceHeuristic)
    (rng : Rng) : (Bool × GOptimizerUnit) × Rng :=
  match g_bins_first_fit_h h cp u.bins with
  | some bins' => ((true, { u with bins := bins' }), rng)
  | Option.none => g_add_to_new_bin u cp rng

/-- OptimizerUnit::first_fit_random_heuristics. -/
def g_first_fit_random (u : GOptimizerUnit) (cp : CutPieceWithId) (rng : Rng) :
    (Bool × GOptimizerUnit) × Rng :=
  let (res, rng1) := g_bins_first_fit_rnd cp u.bins rng
  match res with
  | some bins' => ((true, { u with bins := bins' }), rng1)
  | Option.none => g_add_to_new_bin u cp rng1

/-- The piece loop of OptimizerUnit::with_heuristic: insert every piece by
first fit, stopping with NoFitForCutPiece at the first piece that cannot be
placed. -/
def g_with_heuristic_go (h : FreeRectChoiceHeuristic × SplitHeuristic × RotateCutPieceHeuristic) :
    GOptimizerUnit → List CutPieceWithId → Rng → Except CutPiece (GOptimizerUnit × Rng)
  | u, [], rng => .ok (u, rng)
  | u, cp :: rest, rng =>
    let (r, rng1) := g_first_fit_with_heuristic u cp h rng
    if r.1 then g_with_heuristic_go h r.2 rest rng1
    else .error (no_fit_for_cut_piece_error cp)

/-- OptimizerUnit::with_heuristic (guillotine instantiation). -/
def g_with_heuristic (possible_stock_pieces : List StockPiece)
    (cut_pieces : List CutPieceWithId) (blade_width : Nat)
    (h : FreeRectChoiceHeuristic × SplitHeuristic × RotateCutPieceHeuristic)
    (rng : Rng) : Except CutPiece (GOptimizerUnit × Rng) :=
  g_with_heuristic_go h ⟨[], possible_stock_pieces, blade_width⟩ cut_pieces rng

/-! ## Optimizer unit instantiated at the MaxRects bin. -/

structure MOptimizerUnit where
  bins : List MaxRectsBin
  possible_stock_pieces : List StockPiece
  blade_width : Nat

/-- The bins loop of first_fit_with_heuristic (MaxRects). -/
def m_bins_first_fit_h (h : MRFreeRectChoiceHeuristic × RotateCutPieceHeuristic)
    (cp : CutPieceWithId) : List MaxRectsBin → Option (List MaxRectsBin)
  | [] => Option.none
  | b :: rest =>
    let r := b.insert_cut_piece_with_heuristic cp h
    if r.1 then some (r.2 :: rest)
    else (m_bins_first_fit_h h cp rest).map (fun rest' => r.2 :: rest')

/-- OptimizerUnit::add_to_new_bin (MaxRects). -/
def m_add_to_new_bin (u : MOptimizerUnit) (cp : CutPieceWithId) (rng : Rng) :
    (Bool × MOptimizerUnit) × Rng :=
  let possible := u.possible_stock_pieces.filter (fun sp => sp.fits_cut_piece cp)
  if possible.length = 0 then ((false, u), rng)
  else
    let (k, rng1) := rng.next possible.length
    match possible.get? k with
    | some sp =>
      let bin := MaxRectsBin.new sp.width sp.length u.blade_width sp.pattern_direction 0
      let (r, rng2) := bin.insert_cut_piece_random_heuristic cp rng1
      if r.1 then ((true, { u with bins := u.bins ++ [r.2] }), rng2)
      else ((false, u), rng2)
    | Option.none => ((false, u), rng1)

/-- OptimizerUnit::first_fit_with_heuristic (MaxRects). -/
def m_first_fit_with_heuristic (u : MOptimizerUnit) (cp : CutPieceWithId)
    (h : MRFreeRectChoiceHeuristic × RotateCutPieceHeuristic)
    (rng : Rng) : (Bool × MOptimizerUnit) × Rng :=
  match m_bins_first_fit_h h cp u.bins with
  | some bins' => ((true, { u with bins := bins' }), rng)
  | Option.none => m_add_to_new_bin u cp rng

/-- The piece loop of OptimizerUnit::with_heuristic (MaxRects). -/
def m_with_heuristic_go (h : MRFreeRectChoiceHeuristic × RotateCutPieceHeuristic) :
    MOptimizerUnit → List CutPieceWithId → Rng → Except CutPiece (MOptimizerUnit × Rng)
  | u, [], rng => .ok (u, rng)
  | u, cp :: rest, rng =>
    let (r, rng1) := m_first_fit_with_heuristic u cp h rng
    if r.1 then m_with_heuristic_go h r.2 rest rng1
    else .error (no_fit_for_cut_piece_error cp)

/-- OptimizerUnit::with_heuristic (MaxRects instantiation). -/
def m_with_heuristic (possible_stock_pieces : List StockPiece)
    (cut_pieces : List CutPieceWithId) (blade_width : Nat)
    (h : MRFreeRectChoiceHeuristic × RotateCutPieceHeuristic)
    (rng : Rng) : Except CutPiece (MOptimizerUnit × Rng) :=
  m_with_heuristic_go h ⟨[], possible_stock_pieces, blade_width⟩ cut_pieces rng

/-- No stock piece in the list fits the piece. -/
def no_stock_fits (stock : List StockPiece) (cp : CutPieceWithId) : Bool :=
  stock.all (fun sp => !(sp.fits_cut_piece cp))

/-! ## Claim C2: supporting lemmas, guillotine side -/

theorem no_stock_fits_iff {stock : List StockPiece} {cp : CutPieceWithId} :
    no_stock_fits stock cp = true ↔ ¬ ∃ sp ∈ stock, sp.fits_cut_piece cp = true := by
  simp [no_stock_fits, List.all_eq_true]

theorem find_placement_loop_single {pd : PatternDirection} {cp : CutPieceWithId}
    {rc : FreeRectChoiceHeuristic} {pr : Bool} {R : Rect}
    (h : R.fit_cut_piece3 pd cp pr ≠ Fit.none) :
    (find_placement_loop pd cp rc pr 0 [R]
      ⟨⟨0, 0, 0, 0⟩, Option.none, Fit.none, Option.none⟩).free_index = some 0 := by
  cases hfit : R.fit_cut_piece3 pd cp pr <;>
    simp_all [find_placement_loop, hfit, score_lt]

theorem find_placement_loop_allnone {pd : PatternDirection} {cp : CutPieceWithId}
    {rc : FreeRectChoiceHeuristic} {pr : Bool} :
    ∀ (rects : List Rect) (i : Nat) (st : GSearchState),
      (∀ fr ∈ rects, fr.fit_cut_piece3 pd cp pr = Fit.none) →
      find_placement_loop pd cp rc pr i rects st = st := by
  intro rects
  induction rects with
  | nil => intro i st _; rfl
  | cons fr rest ih =>
    intro i st hall
    have h0 : fr.fit_cut_piece3 pd cp pr = Fit.none := hall fr (by simp)
    simp only [find_placement_loop, h0]
    exact ih (i + 1) st (fun q hq => hall q (by simp [hq]))

theorem g_insert_false_of_allnone {b : GuillotineBin} {cp : CutPieceWithId} {m : Bool}
    {rc : FreeRectChoiceHeuristic} {sm : SplitHeuristic} {rp : RotateCutPieceHeuristic}
    (hall : ∀ fr ∈ b.free_rects, fr.fit_cut_piece3 b.pattern_direction cp
      (decide (rp = RotateCutPieceHeuristic.preferRotated)) = Fit.none) :
    (b.insert_with_heuristics cp m rc sm rp).1 = false := by
  unfold GuillotineBin.insert_with_heuristics GuillotineBin.find_placement_for_cut_piece
  dsimp only
  rw [find_placement_loop_allnone _ _ _ hall]

/-- A bin is well-formed with respect to a stock list: its dimensions and
direction come from some stock piece and its containment invariant holds. -/
def g_bin_ok (stock : List StockPiece) (b : GuillotineBin) : Prop :=
  (∃ sp ∈ stock, b.width = sp.width ∧ b.length = sp.length ∧
    b.pattern_direction = sp.pattern_direction) ∧ b.inv

theorem g_bin_rejects {stock : List StockPiece} {b : GuillotineBin} {cp : CutPieceWithId}
    (hok : g_bin_ok stock b) (hno : no_stock_fits stock cp = true)
    (h : FreeRectChoiceHeuristic × SplitHeuristic × RotateCutPieceHeuristic) :
    (b.insert_cut_piece_with_heuristic cp h).1 = false := by
  obtain ⟨⟨sp, hsp, hw, hl, hpd⟩, hfree, _⟩ := hok
  obtain ⟨rc, sm, rp⟩ := h
  apply g_insert_false_of_allnone
  intro fr hfr
  by_cases hfit : fr.fit_cut_piece3 b.pattern_direction cp
      (decide (rp = RotateCutPieceHeuristic.preferRotated)) = Fit.none
  · exact hfit
  · exfalso
    obtain ⟨hx, hy⟩ := hfree fr hfr
    have hfits : sp.fits_cut_piece cp = true := by
      unfold StockPiece.fits_cut_piece
      have hne : Rect.fit_cut_piece ⟨0, 0, sp.width, sp.length⟩ sp.pattern_direction cp ≠
          Fit.none := by
        apply fit2_ne_none_iff.mpr
        rcases fit3_ne_none_iff.mp hfit with ⟨h1, h2, h3⟩ | ⟨h1, h2, h3, h4⟩
        · left
          refine ⟨by rw [h1, hpd], ?_, ?_⟩ <;> dsimp only <;> omega
        · right
          refine ⟨h1, by rw [h2, hpd], ?_, ?_⟩ <;> dsimp only <;> omega
      cases hfe : Rect.fit_cut_piece ⟨0, 0, sp.width, sp.length⟩ sp.pattern_direction cp <;>
        simp_all [Fit.is_none]
    have := no_stock_fits_iff.mp hno
    exact this ⟨sp, hsp, hfits⟩

theorem g_insert_dims {b : GuillotineBin} {cp : CutPieceWithId} {m : Bool}
    {rc : FreeRectChoiceHeuristic} {sm : SplitHeuristic} {rp : RotateCutPieceHeuristic} :
    (b.insert_with_heuristics cp m rc sm rp).2.width = b.width ∧
    (b.insert_with_heuristics cp m rc sm rp).2.length = b.length ∧
    (b.insert_with_heuristics cp m rc sm rp).2.pattern_direction = b.pattern_direction := by
  unfold GuillotineBin.insert_with_heuristics
  dsimp only
  cases hp : b.find_placement_for_cut_piece cp rc
      (decide (rp = RotateCutPieceHeuristic.preferRotated)) with
  | none => exact ⟨rfl, rfl, rfl⟩
  | some p =>
    obtain ⟨used, idx⟩ := p
    dsimp only
    cases hg : b.free_rects.get? idx with
    | none => exact ⟨rfl, rfl, rfl⟩
    | some fr => exact ⟨rfl, rfl, rfl⟩

theorem g_insert_bin_ok {stock : List StockPiece} {b : GuillotineBin} {cp : CutPieceWithId}
    (h : FreeRectChoiceHeuristic × SplitHeuristic × RotateCutPieceHeuristic)
    (hok : g_bin_ok stock b) : g_bin_ok stock (b.insert_cut_piece_with_heuristic cp h).2 := by
  obtain ⟨⟨sp, hsp, hdims⟩, hinv⟩ := hok
  obtain ⟨rc, sm, rp⟩ := h
  refine ⟨⟨sp, hsp, ?_⟩, g_insert_inv cp true rc sm rp hinv⟩
  obtain ⟨d1, d2, d3⟩ :=
    @g_insert_dims b cp true rc sm rp
  unfold GuillotineBin.insert_cut_piece_with_heuristic
  exact ⟨by rw [d1, hdims.1], by rw [d2, hdims.2.1], by rw [d3, hdims.2.2]⟩

theorem g_insert_true_fits {stock : List StockPiece} {b : GuillotineBin} {cp : CutPieceWithId}
    (h : FreeRectChoiceHeuristic × SplitHeuristic × RotateCutPieceHeuristic)
    (hok : g_bin_ok stock b) (ht : (b.insert_cut_piece_with_heuristic cp h).1 = true) :
    ∃ sp ∈ stock, sp.fits_cut_piece cp = true := by
  by_cases hno : no_stock_fits stock cp = true
  · rw [g_bin_rejects hok hno h] at ht
    cases ht
  · simpa [no_stock_fits, List.all_eq_true] using hno

theorem g_bins_loop_none {stock : List StockPiece} {cp : CutPieceWithId}
    (h : FreeRectChoiceHeuristic × SplitHeuristic × RotateCutPieceHeuristic)
    (hno : no_stock_fits stock cp = true) :
    ∀ bins : List GuillotineBin, (∀ b ∈ bins, g_bin_ok stock b) →
      g_bins_first_fit_h h cp bins = Option.none := by
  intro bins
  induction bins with
  | nil => intro _; rfl
  | cons b rest ih =>
    intro hok
    have hb := g_bin_rejects (hok b (by simp)) hno h
    simp only [g_bins_first_fit_h, hb, if_false, Bool.false_eq_true]
    rw [ih (fun q hq => hok q (by simp [hq]))]
    rfl

theorem g_bins_loop_some_fits {stock : List StockPiece} {cp : CutPieceWithId}
    (h : FreeRectChoiceHeuristic × SplitHeuristic × RotateCutPieceHeuristic) :
    ∀ bins bins' : List GuillotineBin, (∀ b ∈ bins, g_bin_ok stock b) →
      g_bins_first_fit_h h cp bins = some bins' →
      ∃ sp ∈ stock, sp.fits_cut_piece cp = true := by
  intro bins
  induction bins with
  | nil => intro bins' _ hs; cases hs
  | cons b rest ih =>
    intro bins' hok hs
    simp only [g_bins_first_fit_h] at hs
    split_ifs at hs with hins
    · exact g_insert_true_fits h (hok b (by simp)) hins
    · cases hr : g_bins_first_fit_h h cp rest with
      | none => rw [hr] at hs; cases hs
      | some rest' => exact ih rest' (fun q hq => hok q (by simp [hq])) hr

theorem g_bins_loop_some_ok {stock : List StockPiece} {cp : CutPieceWithId}
    (h : FreeRectChoiceHeuristic × SplitHeuristic × RotateCutPieceHeuristic) :
    ∀ bins bins' : List GuillotineBin, (∀ b ∈ bins, g_bin_ok stock b) →
      g_bins_first_fit_h h cp bins = some bins' →
      ∀ b ∈ bins', g_bin_ok stock b := by
  intro bins
  induction bins with
  | nil => intro bins' _ hs; cases hs
  | cons b rest ih =>
    intro bins' hok hs
    simp only [g_bins_first_fit_h] at hs
    split_ifs at hs with hins
    · rw [Option.some_inj] at hs
      subst hs
      intro q hq
      rcases List.mem_cons.mp hq with rfl | hq2
      · exact g_insert_bin_ok h (hok b (by simp))
      · exact hok q (by simp [hq2])
    · cases hr : g_bins_first_fit_h h cp rest with
      | none => rw [hr] at hs; cases hs
      | some rest' =>
        rw [hr] at hs
        simp only [Option.map_some', Option.some_inj] at hs
        subst hs
        intro q hq
        rcases List.mem_cons.mp hq with rfl | hq2
        · exact g_insert_bin_ok h (hok b (by simp))
        · exact ih rest' (fun q hq => hok q (by simp [hq])) hr q hq2

theorem g_new_insert_succeeds {sp : StockPiece} {cp : CutPieceWithId} {bw : Nat}
    (hf : sp.fits_cut_piece cp = true)
    (h : FreeRectChoiceHeuristic × SplitHeuristic × RotateCutPieceHeuristic) :
    ((GuillotineBin.new sp.width sp.length bw sp.pattern_direction 0).insert_cut_piece_with_heuristic
      cp h).1 = true := by
  obtain ⟨rc, sm, rp⟩ := h
  have hfit2 : Rect.fit_cut_piece ⟨0, 0, sp.width, sp.length⟩ sp.pattern_direction cp ≠
      Fit.none := by
    unfold StockPiece.fits_cut_piece at hf
    cases hfe : Rect.fit_cut_piece ⟨0, 0, sp.width, sp.length⟩ sp.pattern_direction cp <;>
      simp_all [Fit.is_none]
  have hfit3 : Rect.fit_cut_piece3 ⟨0, 0, sp.width, sp.length⟩ sp.pattern_direction cp
      (decide (rp = RotateCutPieceHeuristic.preferRotated)) ≠ Fit.none :=
    fit3_ne_none_iff.mpr (fit2_ne_none_iff.mp hfit2)
  have hfp := @find_placement_loop_single _ _ rc _ _ hfit3
  unfold GuillotineBin.insert_cut_piece_with_heuristic GuillotineBin.insert_with_heuristics
    GuillotineBin.find_placement_for_cut_piece
  dsimp only [GuillotineBin.new]
  rw [hfp]
  rfl

/-- Spelled with an at-pattern to pass the implicit rc positionally. -/
theorem g_add_to_new_bin_true_iff {u : GOptimizerUnit} {cp : CutPieceWithId} {rng : Rng} :
    (g_add_to_new_bin u cp rng).1.1 = true ↔
      ∃ sp ∈ u.possible_stock_pieces, sp.fits_cut_piece cp = true := by
  unfold g_add_to_new_bin
  dsimp only
  split_ifs with hlen
  · have hnil : u.possible_stock_pieces.filter (fun sp => sp.fits_cut_piece cp) = [] :=
      List.length_eq_zero.mp hlen
    constructor
    · intro hfalse; cases hfalse
    · rintro ⟨sp, hmem, hfit⟩
      have : sp ∈ u.possible_stock_pieces.filter (fun sp => sp.fits_cut_piece cp) :=
        List.mem_filter.mpr ⟨hmem, hfit⟩
      rw [hnil] at this
      cases this
  · have hklt : (rng.next (u.possible_stock_pieces.filter
        (fun sp => sp.fits_cut_piece cp)).length).1 <
        (u.possible_stock_pieces.filter (fun sp => sp.fits_cut_piece cp)).length :=
      Nat.mod_lt _ (Nat.pos_of_ne_zero hlen)
    rw [List.get?_eq_get hklt]
    dsimp only
    set sp := (u.possible_stock_pieces.filter (fun sp => sp.fits_cut_piece cp)).get
      ⟨(rng.next (u.possible_stock_pieces.filter (fun sp => sp.fits_cut_piece cp)).length).1,
        hklt⟩ with hsp
    have hsp_mem : sp ∈ u.possible_stock_pieces.filter (fun sp => sp.fits_cut_piece cp) :=
      List.get_mem _ _ _
    have hsp_fits : sp.fits_cut_piece cp = true := (List.mem_filter.mp hsp_mem).2
    have hsp_stock : sp ∈ u.possible_stock_pieces := (List.mem_filter.mp hsp_mem).1
    unfold GuillotineBin.insert_cut_piece_random_heuristic
    dsimp only
    rw [g_new_insert_succeeds hsp_fits]
    simp only [if_true]
    constructor
    · intro _; exact ⟨sp, hsp_stock, hsp_fits⟩
    · intro _; trivial

theorem g_add_to_new_bin_ok {u : GOptimizerUnit} {cp : CutPieceWithId} {rng : Rng}
    (hok : ∀ b ∈ u.bins, g_bin_ok u.possible_stock_pieces b) :
    (∀ b ∈ (g_add_to_new_bin u cp rng).1.2.bins,
      g_bin_ok u.possible_stock_pieces b) ∧
    (g_add_to_new_bin u cp rng).1.2.possible_stock_pieces = u.possible_stock_pieces := by
  unfold g_add_to_new_bin
  dsimp only
  split_ifs with hlen
  · exact ⟨hok, rfl⟩
  · cases hg : (u.possible_stock_pieces.filter (fun sp => sp.fits_cut_piece cp)).get?
        (rng.next (u.possible_stock_pieces.filter (fun sp => sp.fits_cut_piece cp)).length).1 with
    | none => exact ⟨hok, rfl⟩
    | some sp =>
      have hsp_mem := List.get?_mem hg
      have hsp_stock : sp ∈ u.possible_stock_pieces := (List.mem_filter.mp hsp_mem).1
      dsimp only
      unfold GuillotineBin.insert_cut_piece_random_heuristic
      dsimp only
      split_ifs with hins
      · refine ⟨?_, rfl⟩
        intro b hb
        rcases List.mem_append.mp hb with hb | hb
        · exact hok b hb
        · simp only [List.mem_singleton] at hb
          subst hb
          have hnewok : g_bin_ok u.possible_stock_pieces
              (GuillotineBin.new sp.width sp.length u.blade_width sp.pattern_direction 0) :=
            ⟨⟨sp, hsp_stock, rfl, rfl, rfl⟩, g_new_inv _ _ _ _ _⟩
          exact g_insert_bin_ok _ hnewok
      · exact ⟨hok, rfl⟩

theorem g_first_fit_true_iff {u : GOptimizerUnit} {cp : CutPieceWithId} {rng : Rng}
    (h : FreeRectChoiceHeuristic × SplitHeuristic × RotateCutPieceHeuristic)
    (hok : ∀ b ∈ u.bins, g_bin_ok u.possible_stock_pieces b) :
    (g_first_fit_with_heuristic u cp h rng).1.1 = true ↔
      ∃ sp ∈ u.possible_stock_pieces, sp.fits_cut_piece cp = true := by
  unfold g_first_fit_with_heuristic
  cases hloop : g_bins_first_fit_h h cp u.bins with
  | none => exact g_add_to_new_bin_true_iff
  | some bins' =>
    constructor
    · intro _; exact g_bins_loop_some_fits h u.bins bins' hok hloop
    · intro _; rfl

theorem g_first_fit_preserves {u : GOptimizerUnit} {cp : CutPieceWithId} {rng : Rng}
    (h : FreeRectChoiceHeuristic × SplitHeuristic × RotateCutPieceHeuristic)
    (hok : ∀ b ∈ u.bins, g_bin_ok u.possible_stock_pieces b) :
    (∀ b ∈ (g_first_fit_with_heuristic u cp h rng).1.2.bins,
      g_bin_ok u.possible_stock_pieces b) ∧
    (g_first_fit_with_heuristic u cp h rng).1.2.possible_stock_pieces =
      u.possible_stock_pieces := by
  unfold g_first_fit_with_heuristic
  cases hloop : g_bins_first_fit_h h cp u.bins with
  | none => exact g_add_to_new_bin_ok hok
  | some bins' =>
    exact ⟨g_bins_loop_some_ok h u.bins bins' hok hloop, rfl⟩

theorem g_go_spec (h : FreeRectChoiceHeuristic × SplitHeuristic × RotateCutPieceHeuristic) :
    ∀ (cps : List CutPieceWithId) (u : GOptimizerUnit) (rng : Rng),
    (∀ b ∈ u.bins, g_bin_ok u.possible_stock_pieces b) →
    ((∃ e, g_with_heuristic_go h u cps rng = .error e) ↔
      ∃ cp ∈ cps, no_stock_fits u.possible_stock_pieces cp = true) ∧
    (∀ cp₀, cps.find? (no_stock_fits u.possible_stock_pieces) = some cp₀ →
      g_with_heuristic_go h u cps rng = .error (no_fit_for_cut_piece_error cp₀)) := by
  intro cps
  induction cps with
  | nil =>
    intro u rng _
    constructor
    · constructor
      · rintro ⟨e, he⟩; cases he
      · rintro ⟨cp, hcp, _⟩; cases hcp
    · intro cp₀ hfind; cases hfind
  | cons cp rest ih =>
    intro u rng hok
    by_cases hno : no_stock_fits u.possible_stock_pieces cp = true
    · have hfail : (g_first_fit_with_heuristic u cp h rng).1.1 = false := by
        cases hres : (g_first_fit_with_heuristic u cp h rng).1.1 with
        | false => rfl
        | true =>
          exfalso
          exact no_stock_fits_iff.mp hno ((g_first_fit_true_iff h hok).mp hres)
      constructor
      · constructor
        · intro _; exact ⟨cp, by simp, hno⟩
        · intro _
          refine ⟨no_fit_for_cut_piece_error cp, ?_⟩
          simp only [g_with_heuristic_go, hfail, Bool.false_eq_true, if_false]
      · intro cp₀ hfind
        simp only [List.find?, hno] at hfind
        rw [Option.some_inj] at hfind
        subst hfind
        simp only [g_with_heuristic_go, hfail, Bool.false_eq_true, if_false]
    · have hfit : ∃ sp ∈ u.possible_stock_pieces, sp.fits_cut_piece cp = true := by
        by_contra hcon
        exact hno (no_stock_fits_iff.mpr hcon)
      have hsucc : (g_first_fit_with_heuristic u cp h rng).1.1 = true :=
        (g_first_fit_true_iff h hok).mpr hfit
      obtain ⟨hok', hstock'⟩ := g_first_fit_preserves h hok
      have hok2 : ∀ b ∈ (g_first_fit_with_heuristic u cp h rng).1.2.bins,
          g_bin_ok (g_first_fit_with_heuristic u cp h rng).1.2.possible_stock_pieces b := by
        rw [hstock']
        exact hok'
      have ihres := ih (g_first_fit_with_heuristic u cp h rng).1.2
        (g_first_fit_with_heuristic u cp h rng).2 hok2
      rw [hstock'] at ihres
      have hstep : g_with_heuristic_go h u (cp :: rest) rng =
          g_with_heuristic_go h (g_first_fit_with_heuristic u cp h rng).1.2 rest
            (g_first_fit_with_heuristic u cp h rng).2 := by
        simp only [g_with_heuristic_go, hsucc, if_true]
      constructor
      · rw [hstep]
        rw [ihres.1]
        constructor
        · rintro ⟨cp', hcp', hno'⟩
          exact ⟨cp', by simp [hcp'], hno'⟩
        · rintro ⟨cp', hcp', hno'⟩
          rcases List.mem_cons.mp hcp' with rfl | hcp2
          · exact absurd hno' hno
          · exact ⟨cp', hcp2, hno'⟩
      · intro cp₀ hfind
        have hno_b : no_stock_fits u.possible_stock_pieces cp = false :=
          Bool.eq_false_iff.mpr hno
        simp only [List.find?, hno_b] at hfind
        rw [hstep]
        exact ihres.2 cp₀ hfind

/-! ## Claim C2: supporting lemmas, MaxRects side -/

theorem foldl_const_of_id {σ : Type} (step : Option σ → Rect → Option σ) (P : Rect → Prop)
    (hstep : ∀ best fr, P fr → step best fr = best) :
    ∀ (rects : List Rect) (best : Option σ), (∀ fr ∈ rects, P fr) →
      rects.foldl step best = best := by
  intro rects
  induction rects with
  | nil => intro best _; rfl
  | cons fr rest ih =>
    intro best hall
    rw [List.foldl_cons, hstep best fr (hall fr (by simp))]
    exact ih best (fun q hq => hall q (by simp [hq]))

theorem mr_bl_step_none {pd : PatternDirection} {cp : CutPieceWithId} {pr : Bool}
    {best : Option (Rect × Fit × Nat × Nat)} {fr : Rect}
    (h : fr.fit_cut_piece3 pd cp pr = Fit.none) : mr_bl_step pd cp pr best fr = best := by
  dsimp only [mr_bl_step]
  rw [h]
  rfl

theorem mr_bssf_step_none {pd : PatternDirection} {cp : CutPieceWithId} {pr : Bool}
    {best : Option (Rect × Fit × Nat × Nat)} {fr : Rect}
    (h : fr.fit_cut_piece3 pd cp pr = Fit.none) : mr_bssf_step pd cp pr best fr = best := by
  dsimp only [mr_bssf_step]
  rw [h]
  rfl

theorem mr_blsf_step_none {pd : PatternDirection} {cp : CutPieceWithId} {pr : Bool}
    {best : Option (Rect × Fit × Nat × Nat)} {fr : Rect}
    (h : fr.fit_cut_piece3 pd cp pr = Fit.none) : mr_blsf_step pd cp pr best fr = best := by
  dsimp only [mr_blsf_step]
  rw [h]
  rfl

theorem mr_baf_step_none {pd : PatternDirection} {cp : CutPieceWithId} {pr : Bool}
    {best : Option (Rect × Fit × Nat × Nat)} {fr : Rect}
    (h : fr.fit_cut_piece3 pd cp pr = Fit.none) : mr_baf_step pd cp pr best fr = best := by
  dsimp only [mr_baf_step]
  rw [h]
  split_ifs <;> simp_all [Fit.is_upright, Fit.is_rotated]

theorem mr_cp_step_none {bw bl : Nat} {pieces : List UsedCutPiece}
    {pd : PatternDirection} {cp : CutPieceWithId} {pr : Bool}
    {best : Option (Rect × Fit × Nat)} {fr : Rect}
    (h : fr.fit_cut_piece3 pd cp pr = Fit.none) :
    mr_cp_step bw bl pieces pd cp pr best fr = best := by
  dsimp only [mr_cp_step]
  rw [h]
  rfl

theorem mr_find_placement_none {b : MaxRectsBin} {cp : CutPieceWithId}
    {rc : MRFreeRectChoiceHeuristic} {pr : Bool}
    (hall : ∀ fr ∈ b.free_rects, fr.fit_cut_piece3 b.pattern_direction cp pr = Fit.none) :
    b.find_placement_for_cut_piece cp rc pr = Option.none := by
  unfold MaxRectsBin.find_placement_for_cut_piece
  cases rc <;> dsimp only [mr_find_bottom_left, mr_find_best_short_side,
    mr_find_best_long_side, mr_find_best_area, mr_find_contact_point]
  case bottomLeftRule =>
    rw [foldl_const_of_id (mr_bl_step b.pattern_direction cp pr)
      (fun fr => fr.fit_cut_piece3 b.pattern_direction cp pr = Fit.none)
      (fun _ _ hf => mr_bl_step_none hf) b.free_rects Option.none hall]
    rfl
  case bestShortSideFit =>
    rw [foldl_const_of_id (mr_bssf_step b.pattern_direction cp pr)
      (fun fr => fr.fit_cut_piece3 b.pattern_direction cp pr = Fit.none)
      (fun _ _ hf => mr_bssf_step_none hf) b.free_rects Option.none hall]
    rfl
  case bestLongSideFit =>
    rw [foldl_const_of_id (mr_blsf_step b.pattern_direction cp pr)
      (fun fr => fr.fit_cut_piece3 b.pattern_direction cp pr = Fit.none)
      (fun _ _ hf => mr_blsf_step_none hf) b.free_rects Option.none hall]
    rfl
  case bestAreaFit =>
    rw [foldl_const_of_id (mr_baf_step b.pattern_direction cp pr)
      (fun fr => fr.fit_cut_piece3 b.pattern_direction cp pr = Fit.none)
      (fun _ _ hf => mr_baf_step_none hf) b.free_rects Option.none hall]
    rfl
  case contactPointRule =>
    rw [foldl_const_of_id (mr_cp_step b.width b.length b.cut_pieces b.pattern_direction cp pr)
      (fun fr => fr.fit_cut_piece3 b.pattern_direction cp pr = Fit.none)
      (fun _ _ hf => mr_cp_step_none hf) b.free_rects Option.none hall]
    rfl

theorem m_insert_false_of_allnone {b : MaxRectsBin} {cp : CutPieceWithId}
    {rc : MRFreeRectChoiceHeuristic} {rp : RotateCutPieceHeuristic}
    (hall : ∀ fr ∈ b.free_rects, fr.fit_cut_piece3 b.pattern_direction cp
      (decide (rp = RotateCutPieceHeuristic.preferRotated)) = Fit.none) :
    (b.insert_with_heuristics cp rc rp).1 = false := by
  unfold MaxRectsBin.insert_with_heuristics
  dsimp only
  rw [mr_find_placement_none hall]

/-- A MaxRects bin is well-formed with respect to a stock list. -/
def m_bin_ok (stock : List StockPiece) (b : MaxRectsBin) : Prop :=
  (∃ sp ∈ stock, b.width = sp.width ∧ b.length = sp.length ∧
    b.pattern_direction = sp.pattern_direction) ∧ b.inv

theorem m_bin_rejects {stock : List StockPiece} {b : MaxRectsBin} {cp : CutPieceWithId}
    (hok : m_bin_ok stock b) (hno : no_stock_fits stock cp = true)
    (h : MRFreeRectChoiceHeuristic × RotateCutPieceHeuristic) :
    (b.insert_cut_piece_with_heuristic cp h).1 = false := by
  obtain ⟨⟨sp, hsp, hw, hl, hpd⟩, hfree, _⟩ := hok
  obtain ⟨rc, rp⟩ := h
  apply m_insert_false_of_allnone
  intro fr hfr
  by_cases hfit : fr.fit_cut_piece3 b.pattern_direction cp
      (decide (rp = RotateCutPieceHeuristic.preferRotated)) = Fit.none
  · exact hfit
  · exfalso
    obtain ⟨hx, hy⟩ := hfree fr hfr
    have hfits : sp.fits_cut_piece cp = true := by
      unfold StockPiece.fits_cut_piece
      have hne : Rect.fit_cut_piece ⟨0, 0, sp.width, sp.length⟩ sp.pattern_direction cp ≠
          Fit.none := by
        apply fit2_ne_none_iff.mpr
        rcases fit3_ne_none_iff.mp hfit with ⟨h1, h2, h3⟩ | ⟨h1, h2, h3, h4⟩
        · left
          refine ⟨by rw [h1, hpd], ?_, ?_⟩ <;> dsimp only <;> omega
        · right
          refine ⟨h1, by rw [h2, hpd], ?_, ?_⟩ <;> dsimp only <;> omega
      cases hfe : Rect.fit_cut_piece ⟨0, 0, sp.width, sp.length⟩ sp.pattern_direction cp <;>
        simp_all [Fit.is_none]
    have := no_stock_fits_iff.mp hno
    exact this ⟨sp, hsp, hfits⟩

theorem m_insert_dims {b : MaxRectsBin} {cp : CutPieceWithId}
    {rc : MRFreeRectChoiceHeuristic} {rp : RotateCutPieceHeuristic} :
    (b.insert_with_heuristics cp rc rp).2.width = b.width ∧
    (b.insert_with_heuristics cp rc rp).2.length = b.length ∧
    (b.insert_with_heuristics cp rc rp).2.pattern_direction = b.pattern_direction := by
  unfold MaxRectsBin.insert_with_heuristics
  dsimp only
  cases hp : b.find_placement_for_cut_piece cp rc
      (decide (rp = RotateCutPieceHeuristic.preferRotated)) with
  | none => exact ⟨rfl, rfl, rfl⟩
  | some p => obtain ⟨r0, rot⟩ := p; exact ⟨rfl, rfl, rfl⟩

theorem m_insert_bin_ok {stock : List StockPiece} {b : MaxRectsBin} {cp : CutPieceWithId}
    (h : MRFreeRectChoiceHeuristic × RotateCutPieceHeuristic)
    (hok : m_bin_ok stock b) : m_bin_ok stock (b.insert_cut_piece_with_heuristic cp h).2 := by
  obtain ⟨⟨sp, hsp, hdims⟩, hinv⟩ := hok
  obtain ⟨rc, rp⟩ := h
  refine ⟨⟨sp, hsp, ?_⟩, mr_insert_inv cp rc rp hinv⟩
  obtain ⟨d1, d2, d3⟩ := @m_insert_dims b cp rc rp
  unfold MaxRectsBin.insert_cut_piece_with_heuristic
  exact ⟨by rw [d1, hdims.1], by rw [d2, hdims.2.1], by rw [d3, hdims.2.2]⟩

theorem m_insert_true_fits {stock : List StockPiece} {b : MaxRectsBin} {cp : CutPieceWithId}
    (h : MRFreeRectChoiceHeuristic × RotateCutPieceHeuristic)
    (hok : m_bin_ok stock b) (ht : (b.insert_cut_piece_with_heuristic cp h).1 = true) :
    ∃ sp ∈ stock, sp.fits_cut_piece cp = true := by
  by_cases hno : no_stock_fits stock cp = true
  · rw [m_bin_rejects hok hno h] at ht
    cases ht
  · simpa [no_stock_fits, List.all_eq_true] using hno

theorem m_bins_loop_none {stock : List StockPiece} {cp : CutPieceWithId}
    (h : MRFreeRectChoiceHeuristic × RotateCutPieceHeuristic)
    (hno : no_stock_fits stock cp = true) :
    ∀ bins : List MaxRectsBin, (∀ b ∈ bins, m_bin_ok stock b) →
      m_bins_first_fit_h h cp bins = Option.none := by
  intro bins
  induction bins with
  | nil => intro _; rfl
  | cons b rest ih =>
    intro hok
    have hb := m_bin_rejects (hok b (by simp)) hno h
    simp only [m_bins_first_fit_h, hb, if_false, Bool.false_eq_true]
    rw [ih (fun q hq => hok q (by simp [hq]))]
    rfl

theorem m_bins_loop_some_fits {stock : List StockPiece} {cp : CutPieceWithId}
    (h : MRFreeRectChoiceHeuristic × RotateCutPieceHeuristic) :
    ∀ bins bins' : List MaxRectsBin, (∀ b ∈ bins, m_bin_ok stock b) →
      m_bins_first_fit_h h cp bins = some bins' →
      ∃ sp ∈ stock, sp.fits_cut_piece cp = true := by
  intro bins
  induction bins with
  | nil => intro bins' _ hs; cases hs
  | cons b rest ih =>
    intro bins' hok hs
    simp only [m_bins_first_fit_h] at hs
    split_ifs at hs with hins
    · exact m_insert_true_fits h (hok b (by simp)) hins
    · cases hr : m_bins_first_fit_h h cp rest with
      | none => rw [hr] at hs; cases hs
      | some rest' => exact ih rest' (fun q hq => hok q (by simp [hq])) hr

theorem m_bins_loop_some_ok {stock : List StockPiece} {cp : CutPieceWithId}
    (h : MRFreeRectChoiceHeuristic × RotateCutPieceHeuristic) :
    ∀ bins bins' : List MaxRectsBin, (∀ b ∈ bins, m_bin_ok stock b) →
      m_bins_first_fit_h h cp bins = some bins' →
      ∀ b ∈ bins', m_bin_ok stock b := by
  intro bins
  induction bins with
  | nil => intro bins' _ hs; cases hs
  | cons b rest ih =>
    intro bins' hok hs
    simp only [m_bins_first_fit_h] at hs
    split_ifs at hs with hins
    · rw [Option.some_inj] at hs
      subst hs
      intro q hq
      rcases List.mem_cons.mp hq with rfl | hq2
      · exact m_insert_bin_ok h (hok b (by simp))
      · exact hok q (by simp [hq2])
    · cases hr : m_bins_first_fit_h h cp rest with
      | none => rw [hr] at hs; cases hs
      | some rest' =>
        rw [hr] at hs
        simp only [Option.map_some', Option.some_inj] at hs
        subst hs
        intro q hq
        rcases List.mem_cons.mp hq with rfl | hq2
        · exact m_insert_bin_ok h (hok b (by simp))
        · exact ih rest' (fun q hq => hok q (by simp [hq])) hr q hq2

theorem mr_bl_step_some {pd : PatternDirection} {cp : CutPieceWithId} {pr : Bool} {fr : Rect}
    (h : fr.fit_cut_piece3 pd cp pr ≠ Fit.none) :
    (mr_bl_step pd cp pr Option.none fr).isSome = true := by
  cases hf : fr.fit_cut_piece3 pd cp pr <;>
    simp_all [mr_bl_step, Fit.is_upright, Fit.is_rotated]

theorem mr_bssf_step_some {pd : PatternDirection} {cp : CutPieceWithId} {pr : Bool} {fr : Rect}
    (h : fr.fit_cut_piece3 pd cp pr ≠ Fit.none) :
    (mr_bssf_step pd cp pr Option.none fr).isSome = true := by
  cases hf : fr.fit_cut_piece3 pd cp pr <;>
    simp_all [mr_bssf_step, Fit.is_upright, Fit.is_rotated]

theorem mr_blsf_step_some {pd : PatternDirection} {cp : CutPieceWithId} {pr : Bool} {fr : Rect}
    (h : fr.fit_cut_piece3 pd cp pr ≠ Fit.none) :
    (mr_blsf_step pd cp pr Option.none fr).isSome = true := by
  cases hf : fr.fit_cut_piece3 pd cp pr <;>
    simp_all [mr_blsf_step, Fit.is_upright, Fit.is_rotated]

theorem mr_baf_step_some {pd : PatternDirection} {cp : CutPieceWithId} {pr : Bool} {fr : Rect}
    (h : fr.fit_cut_piece3 pd cp pr ≠ Fit.none)
    (harea : ¬(cp.width * cp.length > fr.width * fr.length)) :
    (mr_baf_step pd cp pr Option.none fr).isSome = true := by
  cases hf : fr.fit_cut_piece3 pd cp pr <;>
    simp_all [mr_baf_step, Fit.is_upright, Fit.is_rotated]

theorem mr_cp_step_some {bw bl : Nat} {pieces : List UsedCutPiece}
    {pd : PatternDirection} {cp : CutPieceWithId} {pr : Bool} {fr : Rect}
    (h : fr.fit_cut_piece3 pd cp pr ≠ Fit.none) :
    (mr_cp_step bw bl pieces pd cp pr Option.none fr).isSome = true := by
  cases hf : fr.fit_cut_piece3 pd cp pr <;>
    simp_all [mr_cp_step, Fit.is_upright, Fit.is_rotated]

theorem m_new_insert_succeeds {sp : StockPiece} {cp : CutPieceWithId} {bw : Nat}
    (hf : sp.fits_cut_piece cp = true)
    (h : MRFreeRectChoiceHeuristic × RotateCutPieceHeuristic) :
    ((MaxRectsBin.new sp.width sp.length bw sp.pattern_direction 0).insert_cut_piece_with_heuristic
      cp h).1 = true := by
  obtain ⟨rc, rp⟩ := h
  have hfit2 : Rect.fit_cut_piece ⟨0, 0, sp.width, sp.length⟩ sp.pattern_direction cp ≠
      Fit.none := by
    unfold StockPiece.fits_cut_piece at hf
    cases hfe : Rect.fit_cut_piece ⟨0, 0, sp.width, sp.length⟩ sp.pattern_direction cp <;>
      simp_all [Fit.is_none]
  have hcond := fit2_ne_none_iff.mp hfit2
  have hfit3 : Rect.fit_cut_piece3 ⟨0, 0, sp.width, sp.length⟩ sp.pattern_direction cp
      (decide (rp = RotateCutPieceHeuristic.preferRotated)) ≠ Fit.none :=
    fit3_ne_none_iff.mpr hcond
  have harea : ¬(cp.width * cp.length >
      (Rect.mk 0 0 sp.width sp.length).width * (Rect.mk 0 0 sp.width sp.length).length) := by
    dsimp only
    rcases hcond with ⟨_, h1, h2⟩ | ⟨_, _, h1, h2⟩
    · exact not_lt.mpr (Nat.mul_le_mul h1 h2)
    · refine not_lt.mpr ?_
      calc cp.width * cp.length = cp.length * cp.width := Nat.mul_comm _ _
        _ ≤ sp.width * sp.length := Nat.mul_le_mul h1 h2
  have hfp : ((MaxRectsBin.new sp.width sp.length bw sp.pattern_direction 0).find_placement_for_cut_piece
      cp rc (decide (rp = RotateCutPieceHeuristic.preferRotated))).isSome = true := by
    unfold MaxRectsBin.find_placement_for_cut_piece
    cases rc <;>
      (dsimp only [MaxRectsBin.new, mr_find_bottom_left, mr_find_best_short_side,
        mr_find_best_long_side, mr_find_best_area, mr_find_contact_point, List.foldl]
       rw [Option.isSome_map'])
    case bottomLeftRule => exact mr_bl_step_some hfit3
    case bestShortSideFit => exact mr_bssf_step_some hfit3
    case bestLongSideFit => exact mr_blsf_step_some hfit3
    case bestAreaFit => exact mr_baf_step_some hfit3 harea
    case contactPointRule =>
      rw [Option.isSome_map']
      exact mr_cp_step_some hfit3
  unfold MaxRectsBin.insert_cut_piece_with_heuristic MaxRectsBin.insert_with_heuristics
  dsimp only
  cases hp : (MaxRectsBin.new sp.width sp.length bw sp.pattern_direction 0).find_placement_for_cut_piece
      cp rc (decide (rp = RotateCutPieceHeuristic.preferRotated)) with
  | none => rw [hp] at hfp; cases hfp
  | some p => obtain ⟨r0, rot⟩ := p; rfl

theorem m_add_to_new_bin_true_iff {u : MOptimizerUnit} {cp : CutPieceWithId} {rng : Rng} :
    (m_add_to_new_bin u cp rng).1.1 = true ↔
      ∃ sp ∈ u.possible_stock_pieces, sp.fits_cut_piece cp = true := by
  unfold m_add_to_new_bin
  dsimp only
  split_ifs with hlen
  · have hnil : u.possible_stock_pieces.filter (fun sp => sp.fits_cut_piece cp) = [] :=
      List.length_eq_zero.mp hlen
    constructor
    · intro hfalse; cases hfalse
    · rintro ⟨sp, hmem, hfit⟩
      have : sp ∈ u.possible_stock_pieces.filter (fun sp => sp.fits_cut_piece cp) :=
        List.mem_filter.mpr ⟨hmem, hfit⟩
      rw [hnil] at this
      cases this
  · have hklt : (rng.next (u.possible_stock_pieces.filter
        (fun sp => sp.fits_cut_piece cp)).length).1 <
        (u.possible_stock_pieces.filter (fun sp => sp.fits_cut_piece cp)).length :=
      Nat.mod_lt _ (Nat.pos_of_ne_zero hlen)
    rw [List.get?_eq_get hklt]
    dsimp only
    set sp := (u.possible_stock_pieces.filter (fun sp => sp.fits_cut_piece cp)).get
      ⟨(rng.next (u.possible_stock_pieces.filter (fun sp => sp.fits_cut_piece cp)).length).1,
        hklt⟩ with hsp
    have hsp_mem : sp ∈ u.possible_stock_pieces.filter (fun sp => sp.fits_cut_piece cp) :=
      List.get_mem _ _ _
    have hsp_fits : sp.fits_cut_piece cp = true := (List.mem_filter.mp hsp_mem).2
    have hsp_stock : sp ∈ u.possible_stock_pieces := (List.mem_filter.mp hsp_mem).1
    unfold MaxRectsBin.insert_cut_piece_random_heuristic
    dsimp only
    rw [m_new_insert_succeeds hsp_fits]
    simp only [if_true]
    constructor
    · intro _; exact ⟨sp, hsp_stock, hsp_fits⟩
    · intro _; trivial

theorem m_add_to_new_bin_ok {u : MOptimizerUnit} {cp : CutPieceWithId} {rng : Rng}
    (hok : ∀ b ∈ u.bins, m_bin_ok u.possible_stock_pieces b) :
    (∀ b ∈ (m_add_to_new_bin u cp rng).1.2.bins,
      m_bin_ok u.possible_stock_pieces b) ∧
    (m_add_to_new_bin u cp rng).1.2.possible_stock_pieces = u.possible_stock_pieces := by
  unfold m_add_to_new_bin
  dsimp only
  split_ifs with hlen
  · exact ⟨hok, rfl⟩
  · cases hg : (u.possible_stock_pieces.filter (fun sp => sp.fits_cut_piece cp)).get?
        (rng.next (u.possible_stock_pieces.filter (fun sp => sp.fits_cut_piece cp)).length).1 with
    | none => exact ⟨hok, rfl⟩
    | some sp =>
      have hsp_mem := List.get?_mem hg
      have hsp_stock : sp ∈ u.possible_stock_pieces := (List.mem_filter.mp hsp_mem).1
      dsimp only
      unfold MaxRectsBin.insert_cut_piece_random_heuristic
      dsimp only
      split_ifs with hins
      · refine ⟨?_, rfl⟩
        intro b hb
        rcases List.mem_append.mp hb with hb | hb
        · exact hok b hb
        · simp only [List.mem_singleton] at hb
          subst hb
          have hnewok : m_bin_ok u.possible_stock_pieces
              (MaxRectsBin.new sp.width sp.length u.blade_width sp.pattern_direction 0) :=
            ⟨⟨sp, hsp_stock, rfl, rfl, rfl⟩, mr_new_inv _ _ _ _ _⟩
          exact m_insert_bin_ok _ hnewok
      · exact ⟨hok, rfl⟩

theorem m_first_fit_true_iff {u : MOptimizerUnit} {cp : CutPieceWithId} {rng : Rng}
    (h : MRFreeRectChoiceHeuristic × RotateCutPieceHeuristic)
    (hok : ∀ b ∈ u.bins, m_bin_ok u.possible_stock_pieces b) :
    (m_first_fit_with_heuristic u cp h rng).1.1 = true ↔
      ∃ sp ∈ u.possible_stock_pieces, sp.fits_cut_piece cp = true := by
  unfold m_first_fit_with_heuristic
  cases hloop : m_bins_first_fit_h h cp u.bins with
  | none => exact m_add_to_new_bin_true_iff
  | some bins' =>
    constructor
    · intro _; exact m_bins_loop_some_fits h u.bins bins' hok hloop
    · intro _; rfl

theorem m_first_fit_preserves {u : MOptimizerUnit} {cp : CutPieceWithId} {rng : Rng}
    (h : MRFreeRectChoiceHeuristic × RotateCutPieceHeuristic)
    (hok : ∀ b ∈ u.bins, m_bin_ok u.possible_stock_pieces b) :
    (∀ b ∈ (m_first_fit_with_heuristic u cp h rng).1.2.bins,
      m_bin_ok u.possible_stock_pieces b) ∧
    (m_first_fit_with_heuristic u cp h rng).1.2.possible_stock_pieces =
      u.possible_stock_pieces := by
  unfold m_first_fit_with_heuristic
  cases hloop : m_bins_first_fit_h h cp u.bins with
  | none => exact m_add_to_new_bin_ok hok
  | some bins' =>
    exact ⟨m_bins_loop_some_ok h u.bins bins' hok hloop, rfl⟩

theorem m_go_spec (h : MRFreeRectChoiceHeuristic × RotateCutPieceHeuristic) :
    ∀ (cps : List CutPieceWithId) (u : MOptimizerUnit) (rng : Rng),
    (∀ b ∈ u.bins, m_bin_ok u.possible_stock_pieces b) →
    ((∃ e, m_with_heuristic_go h u cps rng = .error e) ↔
      ∃ cp ∈ cps, no_stock_fits u.possible_stock_pieces cp = true) ∧
    (∀ cp₀, cps.find? (no_stock_fits u.possible_stock_pieces) = some cp₀ →
      m_with_heuristic_go h u cps rng = .error (no_fit_for_cut_piece_error cp₀)) := by
  intro cps
  induction cps with
  | nil =>
    intro u rng _
    constructor
    · constructor
      · rintro ⟨e, he⟩; cases he
      · rintro ⟨cp, hcp, _⟩; cases hcp
    · intro cp₀ hfind; cases hfind
  | cons cp rest ih =>
    intro u rng hok
    by_cases hno : no_stock_fits u.possible_stock_pieces cp = true
    · have hfail : (m_first_fit_with_heuristic u cp h rng).1.1 = false := by
        cases hres : (m_first_fit_with_heuristic u cp h rng).1.1 with
        | false => rfl
        | true =>
          exfalso
          exact no_stock_fits_iff.mp hno ((m_first_fit_true_iff h hok).mp hres)
      constructor
      · constructor
        · intro _; exact ⟨cp, by simp, hno⟩
        · intro _
          refine ⟨no_fit_for_cut_piece_error cp, ?_⟩
          simp only [m_with_heuristic_go, hfail, Bool.false_eq_true, if_false]
      · intro cp₀ hfind
        simp only [List.find?, hno] at hfind
        rw [Option.some_inj] at hfind
        subst hfind
        simp only [m_with_heuristic_go, hfail, Bool.false_eq_true, if_false]
    · have hfit : ∃ sp ∈ u.possible_stock_pieces, sp.fits_cut_piece cp = true := by
        by_contra hcon
        exact hno (no_stock_fits_iff.mpr hcon)
      have hsucc : (m_first_fit_with_heuristic u cp h rng).1.1 = true :=
        (m_first_fit_true_iff h hok).mpr hfit
      obtain ⟨hok', hstock'⟩ := m_first_fit_preserves h hok
      have hok2 : ∀ b ∈ (m_first_fit_with_heuristic u cp h rng).1.2.bins,
          m_bin_ok (m_first_fit_with_heuristic u cp h rng).1.2.possible_stock_pieces b := by
        rw [hstock']
        exact hok'
      have ihres := ih (m_first_fit_with_heuristic u cp h rng).1.2
        (m_first_fit_with_heuristic u cp h rng).2 hok2
      rw [hstock'] at ihres
      have hstep : m_with_heuristic_go h u (cp :: rest) rng =
          m_with_heuristic_go h (m_first_fit_with_heuristic u cp h rng).1.2 rest
            (m_first_fit_with_heuristic u cp h rng).2 := by
        simp only [m_with_heuristic_go, hsucc, if_true]
      constructor
      · rw [hstep]
        rw [ihres.1]
        constructor
        · rintro ⟨cp', hcp', hno'⟩
          exact ⟨cp', by simp [hcp'], hno'⟩
        · rintro ⟨cp', hcp', hno'⟩
          rcases List.mem_cons.mp hcp' with rfl | hcp2
          · exact absurd hno' hno
          · exact ⟨cp', hcp2, hno'⟩
      · intro cp₀ hfind
        have hno_b : no_stock_fits u.possible_stock_pieces cp = false :=
          Bool.eq_false_iff.mpr hno
        simp only [List.find?, hno_b] at hfind
        rw [hstep]
        exact ihres.2 cp₀ hfind

/-! ## Claim C2 -/

/-- C2 as it holds on this revision: with_heuristic (for both bin kinds, any
heuristic and any random stream) fails exactly when some demand piece fits no
stock piece, and then returns NoFitForCutPiece carrying the first such piece
converted to a plain CutPiece (a single unit, the expansion by quantity
having happened at add_cut_piece).  This revision's StockPiece has no
quantity, so stock is unlimited and quantity exhaustion cannot occur. -/
theorem C2_error_iff_no_fit (stock : List StockPiece) (cps : List CutPieceWithId)
    (bw : Nat) (hG : FreeRectChoiceHeuristic × SplitHeuristic × RotateCutPieceHeuristic)
    (hM : MRFreeRectChoiceHeuristic × RotateCutPieceHeuristic) (rngG rngM : Rng) :
    ((∃ e, g_with_heuristic stock cps bw hG rngG = .error e) ↔
      ∃ cp ∈ cps, no_stock_fits stock cp = true) ∧
    (∀ cp₀, cps.find? (no_stock_fits stock) = some cp₀ →
      g_with_heuristic stock cps bw hG rngG = .error (no_fit_for_cut_piece_error cp₀)) ∧
    ((∃ e, m_with_heuristic stock cps bw hM rngM = .error e) ↔
      ∃ cp ∈ cps, no_stock_fits stock cp = true) ∧
    (∀ cp₀, cps.find? (no_stock_fits stock) = some cp₀ →
      m_with_heuristic stock cps bw hM rngM = .error (no_fit_for_cut_piece_error cp₀)) := by
  have hg := g_go_spec hG cps ⟨[], stock, bw⟩ rngG (by intro b hb; cases hb)
  have hm := m_go_spec hM cps ⟨[], stock, bw⟩ rngM (by intro b hb; cases hb)
  exact ⟨hg.1, hg.2, hm.1, hm.2⟩

/-- Witness for C2: the rotate-blocked scenario (stock 10x11, demand 11x10
with can_rotate = false) errors with that piece on both bin kinds, and the
mismatched-pattern scenario is covered by the same first-offender clause. -/
theorem C2_error_iff_no_fit_witness :
    g_with_heuristic [⟨10, 11, PatternDirection.none⟩]
        [⟨0, some 1, 11, 10, PatternDirection.none, false⟩] 1
        (FreeRectChoiceHeuristic.bestAreaFit, SplitHeuristic.shorterLeftoverAxis,
          RotateCutPieceHeuristic.preferUpright) (rngOf 1) =
      .error (no_fit_for_cut_piece_error ⟨0, some 1, 11, 10, PatternDirection.none, false⟩) ∧
    m_with_heuristic [⟨10, 11, PatternDirection.none⟩]
        [⟨0, some 1, 11, 10, PatternDirection.none, false⟩] 1
        (MRFreeRectChoiceHeuristic.bestAreaFit, RotateCutPieceHeuristic.preferUpright)
        (rngOf 1) =
      .error (no_fit_for_cut_piece_error ⟨0, some 1, 11, 10, PatternDirection.none, false⟩) :=
  ⟨(C2_error_iff_no_fit [⟨10, 11, PatternDirection.none⟩]
      [⟨0, some 1, 11, 10, PatternDirection.none, false⟩] 1
      (FreeRectChoiceHeuristic.bestAreaFit, SplitHeuristic.shorterLeftoverAxis,
        RotateCutPieceHeuristic.preferUpright)
      (MRFreeRectChoiceHeuristic.bestAreaFit, RotateCutPieceHeuristic.preferUpright)
      (rngOf 1) (rngOf 1)).2.1 _ (by decide),
   (C2_error_iff_no_fit [⟨10, 11, PatternDirection.none⟩]
      [⟨0, some 1, 11, 10, PatternDirection.none, false⟩] 1
      (FreeRectChoiceHeuristic.bestAreaFit, SplitHeuristic.shorterLeftoverAxis,
        RotateCutPieceHeuristic.preferUpright)
      (MRFreeRectChoiceHeuristic.bestAreaFit, RotateCutPieceHeuristic.preferUpright)
      (rngOf 1) (rngOf 1)).2.2.2 _ (by decide)⟩

/-! ## Claim C7: OptimizerUnit::crossover (guillotine instantiation) -/

/-- The removal loop of OptimizerUnit::crossover: walk the inherited indices
(outside the injected window) downward; remove the injected pieces from each
bin; a bin that lost pieces is dropped and its remaining pieces are set aside,
a bin that lost none is kept in its post-call state. -/
def g_cross_remove_loop (injected : List UsedCutPiece) :
    List Nat → List GuillotineBin × List UsedCutPiece →
    List GuillotineBin × List UsedCutPiece
  | [], st => st
  | i :: rest, st =>
    match st.1.get? i with
    | some b =>
      let r := b.remove_cut_pieces injected
      if r.2 > 0 then
        g_cross_remove_loop injected rest (st.1.eraseIdx i, st.2 ++ r.1.cut_pieces)
      else
        g_cross_remove_loop injected rest (st.1.set i r.1, st.2)
    | Option.none => g_cross_remove_loop injected rest st

/-- The re-insertion loop at the end of crossover: each set-aside piece is
converted back to a CutPieceWithId and re-inserted by first_fit with random
heuristics; a failed re-insertion is silently dropped (the source discards
the boolean). -/
def g_cross_reinsert : List UsedCutPiece → GOptimizerUnit → Rng → GOptimizerUnit × Rng
  | [], u, rng => (u, rng)
  | p :: rest, u, rng =>
    let (r, rng1) := g_first_fit_random u p.toCutPieceWithId rng
    g_cross_reinsert rest r.2 rng1

/-- The body of OptimizerUnit::crossover once the three random indices are
drawn: inject other.bins[s..e) at position d, rebuild, drop duplicated bins,
re-insert, and retain only bins that still hold pieces. -/
def g_crossover_core (u other : GOptimizerUnit) (d s e : Nat) (rng : Rng) :
    GOptimizerUnit × Rng :=
  let injected_bins := (other.bins.drop s).take (e - s)
  let bins0 := u.bins.take d ++ injected_bins ++ u.bins.drop d
  let injected_pieces := (injected_bins.map GuillotineBin.cut_pieces).flatten
  let indices := ((List.range bins0.length).filter
    (fun i => i < d ∨ d + (e - s) ≤ i)).reverse
  let st := g_cross_remove_loop injected_pieces indices (bins0, [])
  let u1 : GOptimizerUnit := ⟨st.1, u.possible_stock_pieces, u.blade_width⟩
  let r := g_cross_reinsert st.2 u1 rng
  ({ r.1 with bins := r.1.bins.filter (fun b => !b.cut_pieces.isEmpty) }, r.2)

/-- OptimizerUnit::crossover: draw the destination index d in [0, |self.bins|],
the source span start s in [0, |other.bins|) and its end e in (s, |other.bins|].
There is no degenerate branch: with an empty partner, gen_range(0..0) panics in
the source, modelled as Option.none. -/
def g_crossover (u other : GOptimizerUnit) (rng : Rng) : Option (GOptimizerUnit × Rng) :=
  if other.bins.length = 0 then Option.none
  else
    let (d, rng1) := rng.next (u.bins.length + 1)
    let (s, rng2) := rng1.next other.bins.length
    let (eo, rng3) := rng2.next (other.bins.length - s)
    let e := s + 1 + eo
    some (g_crossover_core u other d s e rng3)

/-- A concrete one-bin unit for exercising crossover (piece id 0). -/
def c7_binA : GuillotineBin :=
  ⟨20, 20, 1, PatternDirection.none,
    [⟨0, Option.none, ⟨0, 0, 5, 5⟩, PatternDirection.none, false, false⟩],
    [⟨6, 0, 14, 20⟩, ⟨0, 6, 5, 14⟩], 0⟩

/-- A concrete one-bin unit for exercising crossover (piece id 1). -/
def c7_binB : GuillotineBin :=
  ⟨20, 20, 1, PatternDirection.none,
    [⟨1, Option.none, ⟨0, 0, 7, 7⟩, PatternDirection.none, false, false⟩],
    [⟨8, 0, 12, 20⟩, ⟨0, 8, 7, 12⟩], 0⟩

def c7_uA : GOptimizerUnit := ⟨[c7_binA], [⟨20, 20, PatternDirection.none⟩], 1⟩

def c7_uB : GOptimizerUnit := ⟨[c7_binB], [⟨20, 20, PatternDirection.none⟩], 1⟩

/-- C7 counterexample: both parents have fewer than two bins (one each), yet
crossover does not return a clone of self — it injects the partner's bin, so
the child has two bins, the partner's (piece id 1) followed by self's (piece
id 0). -/
theorem C7_counterexample :
    c7_uA.bins.length = 1 ∧ c7_uB.bins.length = 1 ∧
    (g_crossover c7_uA c7_uB ⟨fun _ => 0, 0⟩).map
      (fun p => p.1.bins.map (fun b => b.cut_pieces.map UsedCutPiece.id)) =
      some [[1], [0]] ∧
    (g_crossover c7_uA c7_uB ⟨fun _ => 0, 0⟩).map (fun p => p.1.bins.length) ≠
      some c7_uA.bins.length := by
  refine ⟨rfl, rfl, by decide, by decide⟩

theorem remove_matching_loop_no_match {tid : Nat} :
    ∀ (n : Nat) (s : List UsedCutPiece × List Rect),
      (∀ p ∈ s.1, p.id ≠ tid) → remove_matching_loop tid n s = s := by
  intro n
  induction n with
  | zero => intro s _; rfl
  | succ n ih =>
    intro s hne
    rw [remove_matching_loop]
    cases hg : s.1.get? n with
    | none => exact ih s hne
    | some p =>
      dsimp only
      rw [if_neg (hne p (List.get?_mem hg))]
      exact ih s hne

theorem g_remove_cut_pieces_no_match {b : GuillotineBin} {targets : List UsedCutPiece}
    (hne : ∀ t ∈ targets, ∀ p ∈ b.cut_pieces, p.id ≠ t.id) :
    (b.remove_cut_pieces targets).1.cut_pieces = b.cut_pieces ∧
    (b.remove_cut_pieces targets).2 = 0 := by
  have hfold : ∀ (ts : List UsedCutPiece) (s : List UsedCutPiece × List Rect),
      (∀ t ∈ ts, ∀ p ∈ s.1, p.id ≠ t.id) →
      ts.foldl (fun s t => remove_matching_loop t.id s.1.length s) s = s := by
    intro ts
    induction ts with
    | nil => intro s _; rfl
    | cons t rest ih =>
      intro s hne'
      rw [List.foldl_cons,
        remove_matching_loop_no_match s.1.length s (fun p hp => hne' t (by simp) p hp)]
      exact ih s (fun t' ht' p hp => hne' t' (by simp [ht']) p hp)
  unfold GuillotineBin.remove_cut_pieces
  dsimp only
  rw [hfold targets (b.cut_pieces, b.free_rects) hne]
  exact ⟨rfl, by dsimp only; omega⟩

/-- For two single-bin parents whose pieces have disjoint ids, the crossover
core with destination d < 2 and span [0, 1) of the partner produces a unit
with exactly two bins: nothing is removed (no id matches), nothing is set
aside, and both bins survive the final non-empty filter. -/
theorem g_crossover_core_single (binA binB : GuillotineBin) (stock stock2 : List StockPiece)
    (bw bw2 : Nat) (rng : Rng) (d : Nat) (hd : d < 2)
    (hA : binA.cut_pieces ≠ []) (hB : binB.cut_pieces ≠ [])
    (hdisj : ∀ p ∈ binA.cut_pieces, ∀ q ∈ binB.cut_pieces, p.id ≠ q.id) :
    ((g_crossover_core ⟨[binA], stock, bw⟩ ⟨[binB], stock2, bw2⟩ d 0 1 rng).1).bins.length = 2 := by
  have hne : ∀ t ∈ binB.cut_pieces, ∀ p ∈ binA.cut_pieces, p.id ≠ t.id :=
    fun t ht p hp => hdisj p hp t ht
  obtain ⟨hc, hn⟩ := g_remove_cut_pieces_no_match hne
  interval_cases d
  · unfold g_crossover_core
    dsimp only
    simp only [List.take, List.drop, List.map, List.flatten, List.append_nil, List.nil_append,
      List.length_append, List.length_singleton, List.range_succ, List.range_zero,
      List.filter, List.reverse_cons, List.reverse_nil, List.append_eq, List.nil_append,
      List.length_cons, List.length_nil]
    simp only [g_cross_remove_loop, List.cons_append, List.nil_append,
      List.get?_cons_succ, List.get?_cons_zero]
    rw [if_neg (by rw [hn]; omega)]
    simp only [g_cross_remove_loop, List.set]
    simp only [g_cross_reinsert]
    obtain ⟨a, as, ha⟩ := List.exists_cons_of_ne_nil hA
    obtain ⟨c, cs, hcc⟩ := List.exists_cons_of_ne_nil hB
    simp only [List.filter, hc, ha, hcc, List.isEmpty_cons, Bool.not_false, List.length_cons,
      List.length_nil]
    rw [← hcc, hc, ha]
    rfl
  · unfold g_crossover_core
    dsimp only
    simp only [List.take, List.drop, List.map, List.flatten, List.append_nil, List.nil_append,
      List.length_append, List.length_singleton, List.range_succ, List.range_zero,
      List.filter, List.reverse_cons, List.reverse_nil, List.append_eq, List.nil_append,
      List.length_cons, List.length_nil]
    norm_num
    simp only [g_cross_remove_loop, List.cons_append, List.nil_append,
      List.get?_cons_succ, List.get?_cons_zero]
    rw [if_neg (by rw [hn]; omega)]
    simp only [g_cross_remove_loop, List.set]
    simp only [g_cross_reinsert]
    obtain ⟨a, as, ha⟩ := List.exists_cons_of_ne_nil hA
    obtain ⟨c, cs, hcc⟩ := List.exists_cons_of_ne_nil hB
    simp only [List.filter, hc, ha, hcc, List.isEmpty_cons, Bool.not_false, List.length_cons,
      List.length_nil]
    rw [← hcc, hc, ha]
    rfl

/-- C7 (amended): crossover has no degenerate clone-of-self branch in this
revision.  Whenever the partner has at least one bin — here both parents have
exactly one non-empty bin, with disjoint piece ids — crossover succeeds and
injects the partner's span, so the child has two bins, not a clone of self's
single bin.  (With an empty partner the source's gen_range(0..0) panics,
modelled as Option.none in g_crossover.) -/
theorem C7_crossover_injects_span (binA binB : GuillotineBin) (stock stock2 : List StockPiece)
    (bw bw2 : Nat) (rng : Rng)
    (hA : binA.cut_pieces ≠ []) (hB : binB.cut_pieces ≠ [])
    (hdisj : ∀ p ∈ binA.cut_pieces, ∀ q ∈ binB.cut_pieces, p.id ≠ q.id) :
    ∃ r, g_crossover ⟨[binA], stock, bw⟩ ⟨[binB], stock2, bw2⟩ rng = some r ∧
      r.1.bins.length = 2 := by
  unfold g_crossover
  simp only [List.length_singleton]
  rw [if_neg (by omega)]
  dsimp only [Rng.next]
  simp only [Nat.mod_one, Nat.sub_zero, Nat.add_zero, Nat.zero_add]
  exact ⟨_, rfl,
    g_crossover_core_single binA binB stock stock2 bw bw2 _ _
      (Nat.mod_lt _ (by omega)) hA hB hdisj⟩

/-- Witness for C7: the amended theorem applied to the concrete one-bin
parents c7_binA and c7_binB. -/
theorem C7_crossover_injects_span_witness :
    ∃ r, g_crossover ⟨[c7_binA], [⟨20, 20, PatternDirection.none⟩], 1⟩
        ⟨[c7_binB], [⟨20, 20, PatternDirection.none⟩], 1⟩ (rngOf 7) = some r ∧
      r.1.bins.length = 2 :=
  C7_crossover_injects_span c7_binA c7_binB [⟨20, 20, PatternDirection.none⟩]
    [⟨20, 20, PatternDirection.none⟩] 1 1 (rngOf 7)
    (by decide) (by decide) (by decide)

/-! ## Genetic population (src/genetic/population.rs) -/

/-- LazyUnit from genetic/population.rs: a unit together with its lazily
computed fitness (f64 modelled as an exact rational). -/
structure LazyUnit (U : Type) where
  unit : U
  lazy_fitness : Option Rat
deriving DecidableEq

/-- The breeder-collection loop at the top of Population::epoch: units are
popped from the end of the vector (traversed here as units.reverse) and pushed
onto breeders, stopping when breeders.len() == breed_up_to; the check runs
after the push, so when breed_up_to is 0 it never fires and every unit becomes
a breeder.  The source then clears whatever is left in units. -/
def breed_pop_loop {U : Type} (breed_up_to : Nat) :
    List (LazyUnit U) → List (LazyUnit U) → List (LazyUnit U)
  | [], breeders => breeders
  | u :: rest, breeders =>
    let breeders1 := breeders ++ [u]
    if breeders1.length = breed_up_to then breeders1
    else breed_pop_loop breed_up_to rest breeders1

/-- The child-generation loop of Population::epoch: for each i below
max_size - surviving_parents, draw a random partner index, breed
breeders[i mod breeders.len()] with breeders[rs], and push the child with an
unset lazy fitness.  The breeders list is passed as a guaranteed-nonempty
b0 :: bs (the source asserts units is nonempty, so breeders is too); getD's
default b0 is never used since both indices are reduced below the length. -/
def epoch_children {U : Type} (br : U → U → Rng → U × Rng)
    (b0 : LazyUnit U) (bs : List (LazyUnit U)) :
    Nat → Nat → Rng → List (LazyUnit U) × Rng
  | 0, _, rng => ([], rng)
  | Nat.succ fuel, i, rng =>
    let breeders := b0 :: bs
    let d := rng.next breeders.length
    let p := breeders.getD (i % breeders.length) b0
    let q := breeders.getD d.1 b0
    let c := br p.unit q.unit d.2
    let rest := epoch_children br b0 bs fuel (i + 1) c.2
    (⟨c.1, Option.none⟩ :: rest.1, rest.2)

/-- Population::epoch from genetic/population.rs, parameterized by the
breed_with operation.  breed_up_to is (breed_factor * len) cast to usize
(truncation = floor for the asserted-positive factor); surviving_parents is
(breeders.len() * survival_factor).ceil() as usize; the new generation is the
children followed by the first surviving_parents breeders (Vec::drain from the
front, modelled as take; the source would panic if surviving exceeded the
breeder count).  The empty-breeders arm is unreachable: the source asserts
units is nonempty. -/
def Population.epoch {U : Type} (br : U → U → Rng → U × Rng)
    (breed_factor survival_factor : Rat) (max_size : Nat)
    (units : List (LazyUnit U)) (rng : Rng) : List (LazyUnit U) × Rng :=
  let breed_up_to := ⌊breed_factor * (units.length : Rat)⌋.toNat
  match breed_pop_loop breed_up_to units.reverse [] with
  | [] => ([], rng)
  | b0 :: bs =>
    let surviving := ⌈((b0 :: bs : List (LazyUnit U)).length : Rat) * survival_factor⌉.toNat
    let cr := epoch_children br b0 bs (max_size - surviving) 0 rng
    (cr.1 ++ (b0 :: bs).take surviving, cr.2)

/-- When breed_up_to is 0 the break check never fires: every unit is popped
into the breeder list. -/
theorem breed_pop_loop_zero {U : Type} (us : List (LazyUnit U)) :
    ∀ acc, breed_pop_loop 0 us acc = acc ++ us := by
  induction us with
  | nil => intro acc; simp [breed_pop_loop]
  | cons u rest ih =>
    intro acc
    rw [breed_pop_loop]
    rw [if_neg (by simp)]
    rw [ih]
    simp

/-- When breed_up_to is positive the loop stops as soon as the breeder list
reaches that length: starting below it, it collects the next
breed_up_to - acc.length units (or all of them if fewer remain). -/
theorem breed_pop_loop_take {U : Type} (k : Nat) (hk : k ≠ 0) :
    ∀ (us acc : List (LazyUnit U)), acc.length < k →
      breed_pop_loop k us acc = acc ++ us.take (k - acc.length) := by
  intro us
  induction us with
  | nil => intro acc _; simp [breed_pop_loop]
  | cons u rest ih =>
    intro acc hlt
    rw [breed_pop_loop]
    by_cases he : (acc ++ [u]).length = k
    · rw [if_pos he]
      simp only [List.length_append, List.length_singleton] at he
      have h1 : k - acc.length = 1 := by omega
      rw [h1]
      simp
    · rw [if_neg he]
      simp only [List.length_append, List.length_singleton] at he
      rw [ih (acc ++ [u]) (by simp; omega)]
      have h1 : k - acc.length = (k - (acc ++ [u]).length) + 1 := by simp; omega
      rw [h1, List.take_succ_cons]
      simp

/-- The child loop produces exactly its fuel's worth of children. -/
theorem epoch_children_length {U : Type} (br : U → U → Rng → U × Rng)
    (b0 : LazyUnit U) (bs : List (LazyUnit U)) :
    ∀ (fuel i : Nat) (rng : Rng),
      (epoch_children br b0 bs fuel i rng).1.length = fuel := by
  intro fuel
  induction fuel with
  | zero => intro i rng; rfl
  | succ fuel ih =>
    intro i rng
    rw [epoch_children]
    dsimp only
    rw [List.length_cons, ih]

/-- The breeder loop from the empty accumulator: all units when breed_up_to is
0, otherwise the first breed_up_to of the popped (reversed) units. -/
theorem breed_pop_loop_spec {U : Type} (k : Nat) (us : List (LazyUnit U)) :
    breed_pop_loop k us [] = if k = 0 then us else us.take k := by
  by_cases hk : k = 0
  · rw [if_pos hk, hk, breed_pop_loop_zero]
    simp
  · rw [if_neg hk, breed_pop_loop_take k hk us [] (by simp; omega)]
    simp

/-- A tiny concrete breed operation for exercising the epoch. -/
def c9_br : Nat → Nat → Rng → Nat × Rng := fun a b rng => (a + b, rng)

/-- Three concrete lazy units with fitnesses already cached. -/
def c9_units : List (LazyUnit Nat) := [⟨1, some 1⟩, ⟨2, some 2⟩, ⟨3, some 3⟩]

/-- C9 counterexample: with breed_factor 1/4 and three units the claimed
breeder slice has floor(1/4 * 3) = 0 units, yet the source's break check
(== tested after the push) never fires at 0, so all three units become
breeders; with survival_factor 1 and max_size 3 every breeder then survives
and the new generation is the three original units reversed — not the empty
breeder set (and hence 3 freshly bred children) the claim describes. -/
theorem C9_counterexample :
    ⌊(1 / 4 : Rat) * ((c9_units.length : Rat))⌋.toNat = 0 ∧
    (Population.epoch c9_br (1 / 4) 1 3 c9_units (rngOf 0)).1 =
      [⟨3, some 3⟩, ⟨2, some 2⟩, ⟨1, some 1⟩] := by
  have h0 : ⌊(1 / 4 : Rat) * ((c9_units.length : Rat))⌋.toNat = 0 := by
    simp only [c9_units, List.length_cons, List.length_nil]
    norm_num
  refine ⟨h0, ?_⟩
  unfold Population.epoch
  dsimp only
  rw [h0, breed_pop_loop_spec]
  norm_num [c9_units]
  rfl

/-- C9 (amended): in Population::epoch over n units sorted ascending, the
breeder set is the last floor(breed_factor * n) units when that floor is
positive, but ALL n units when the floor is 0 (the break check runs after the
push and tests equality, so 0 never stops the pop loop); the survivors are the
first ceil(|breeders| * survival_factor) breeders (the fittest, since breeders
were popped fittest-first); exactly max_size - |survivors| children are
generated by epoch_children (child i bred from breeders[i mod |breeders|] and
a randomly drawn breeder); and the new generation is the children followed by
the survivors. -/
theorem C9_epoch_structure {U : Type} (br : U → U → Rng → U × Rng)
    (bf sf : Rat) (ms : Nat) (units : List (LazyUnit U)) (rng : Rng)
    (hne : units ≠ []) :
    ∃ b0 bs,
      (if ⌊bf * (units.length : Rat)⌋.toNat = 0 then units.reverse
        else units.reverse.take ⌊bf * (units.length : Rat)⌋.toNat) = b0 :: bs ∧
      (∀ s, s = ⌈((b0 :: bs : List (LazyUnit U)).length : Rat) * sf⌉.toNat →
        Population.epoch br bf sf ms units rng =
          ((epoch_children br b0 bs (ms - s) 0 rng).1 ++ (b0 :: bs).take s,
            (epoch_children br b0 bs (ms - s) 0 rng).2) ∧
        (epoch_children br b0 bs (ms - s) 0 rng).1.length = ms - s) := by
  have hrev : units.reverse ≠ [] := by simp [hne]
  set k0 := ⌊bf * (units.length : Rat)⌋.toNat with hk0
  have hbne : (if k0 = 0 then units.reverse else units.reverse.take k0) ≠ [] := by
    by_cases hk : k0 = 0
    · simpa [hk] using hrev
    · simp only [if_neg hk]
      rw [Ne, List.take_eq_nil_iff]
      push_neg
      exact ⟨hk, hrev⟩
  obtain ⟨b0, bs, hb⟩ := List.exists_cons_of_ne_nil hbne
  refine ⟨b0, bs, hb, ?_⟩
  intro s hs
  have hloop : breed_pop_loop k0 units.reverse [] = b0 :: bs := by
    rw [breed_pop_loop_spec]
    exact hb
  refine ⟨?_, epoch_children_length br b0 bs (ms - s) 0 rng⟩
  unfold Population.epoch
  dsimp only
  rw [← hk0, hloop]
  dsimp only
  rw [hs]

/-- Witness for C9: the amended epoch structure applied to three concrete
units with breed_factor 1/2, survival_factor 1/2 and max_size 4. -/
theorem C9_epoch_structure_witness :
    c9_units ≠ [] ∧
    (∃ b0 bs,
      (if ⌊(1 / 2 : Rat) * ((c9_units.length : Rat))⌋.toNat = 0 then c9_units.reverse
        else c9_units.reverse.take ⌊(1 / 2 : Rat) * ((c9_units.length : Rat))⌋.toNat) =
        b0 :: bs ∧
      (∀ s, s = ⌈((b0 :: bs : List (LazyUnit Nat)).length : Rat) * (1 / 2 : Rat)⌉.toNat →
        Population.epoch c9_br (1 / 2) (1 / 2) 4 c9_units (rngOf 3) =
          ((epoch_children c9_br b0 bs (4 - s) 0 (rngOf 3)).1 ++ (b0 :: bs).take s,
            (epoch_children c9_br b0 bs (4 - s) 0 (rngOf 3)).2) ∧
        (epoch_children c9_br b0 bs (4 - s) 0 (rngOf 3)).1.length = 4 - s)) :=
  ⟨by decide, C9_epoch_structure c9_br (1 / 2) (1 / 2) 4 c9_units (rngOf 3) (by decide)⟩

/-! ## Unit fitness, best-result comparison, determinism (src/src/lib.rs) -/

/-- f64 division restricted to the values that occur here: exact when the
divisor is nonzero, Option.none for the 0/0 (NaN) and x/0 (infinite) cases
that leave the rationals. -/
def f64_div (a b : Rat) : Option Rat :=
  if b = 0 then Option.none else some (a / b)

/-- OptimizerUnit::fitness from lib.rs: fold-sum of the per-bin fitnesses
divided by the number of bins, generic in the bin type via binFitness (the
trait method B::fitness).  With no bins the source computes 0.0 / 0.0 = NaN,
modelled as Option.none by f64_div.  Nothing else of the unit is read: there
is no unplaced set in this revision, hence no -1 adjustment. -/
def unit_fitness {B : Type} (binFitness : B → Rat) (bins : List B) : Option Rat :=
  f64_div (bins.foldl (fun acc b => acc + binFitness b) 0) ((bins.length : Rat))

/-- C6 counterexample: a unit with no bins has fitness NaN (0.0 / 0.0),
modelled as Option.none — not the 0 the claim describes; and no unplaced-set
adjustment exists in this revision's fitness. -/
theorem C6_counterexample :
    unit_fitness (fun _ : GuillotineBin => (1 : Rat)) [] = Option.none ∧
    (Option.none : Option Rat) ≠ some (0 : Rat) := by
  constructor
  · rfl
  · simp

/-- C6 (amended): for a unit with at least one bin, fitness is exactly the
average (fold-sum divided by count) of the per-bin fitnesses; with no bins it
is NaN (0.0 / 0.0, modelled Option.none), not 0; and there is no unplaced set
and no -1 adjustment in this revision — fitness reads nothing but the bins. -/
theorem C6_unit_fitness {B : Type} (binFitness : B → Rat) (bins : List B)
    (h : bins ≠ []) :
    unit_fitness binFitness bins =
      some ((bins.foldl (fun acc b => acc + binFitness b) 0) / (bins.length : Rat)) ∧
    unit_fitness binFitness [] = (Option.none : Option Rat) := by
  constructor
  · unfold unit_fitness f64_div
    rw [if_neg]
    intro hz
    rw [Nat.cast_eq_zero, List.length_eq_zero] at hz
    exact h hz
  · rfl

/-- Witness for C6: the amended fitness applied to two concrete bins of
fitness 2 and 4. -/
theorem C6_unit_fitness_witness :
    ([2, 4] : List Nat) ≠ [] ∧
    (unit_fitness (fun n : Nat => (n : Rat)) [2, 4] =
      some (((([2, 4] : List Nat).foldl (fun acc b => acc + (b : Rat)) 0)) /
        ((([2, 4] : List Nat).length : Rat))) ∧
     unit_fitness (fun n : Nat => (n : Rat)) [] = (Option.none : Option Rat)) :=
  ⟨by decide, C6_unit_fitness (fun n : Nat => (n : Rat)) [2, 4] (by decide)⟩

/-- One step of the best-result comparison loop in Optimizer::optimize: an
errored run is ignored; a successful run replaces an errored best
unconditionally and replaces a successful best exactly when its fitness is
strictly higher.  The payload type P stands for the used-stock-pieces vector;
Result is modelled as Option (the error carries no data used here). -/
def update_best {P : Type} (best run : Option (Rat × P)) : Option (Rat × P) :=
  match run with
  | Option.none => best
  | some (f, u) =>
    match best with
    | some b => if f > b.1 then some (f, u) else some b
    | Option.none => some (f, u)

/-- The comparison rule as the claim states it: an invalid (negative-fitness)
run loses to any valid result, among valid results the lower total price wins,
and higher fitness is only the tie-break at equal price.  Written from the
claim's words, to be compared with update_best. -/
def update_best_spec {P : Type} (price : P → Rat) (best run : Option (Rat × P)) :
    Option (Rat × P) :=
  match run with
  | Option.none => best
  | some (f, u) =>
    match best with
    | Option.none => some (f, u)
    | some b =>
      if f < 0 then some b
      else if b.1 < 0 then some (f, u)
      else if price u < price b.2 then some (f, u)
      else if price u = price b.2 ∧ f > b.1 then some (f, u)
      else some b

/-- C4 counterexample: with the current best at fitness 1/2 and price 1, a new
valid run at fitness 9/10 but price 2 replaces the best in the source (only
fitness is compared — no price exists in this revision), while the claimed
rule keeps the cheaper best. -/
theorem C4_counterexample :
    update_best (some ((1 / 2 : Rat), (1 : Rat))) (some ((9 / 10 : Rat), (2 : Rat))) =
      some ((9 / 10 : Rat), (2 : Rat)) ∧
    update_best_spec (fun p => p) (some ((1 / 2 : Rat), (1 : Rat)))
        (some ((9 / 10 : Rat), (2 : Rat))) =
      some ((1 / 2 : Rat), (1 : Rat)) ∧
    some ((9 / 10 : Rat), (2 : Rat)) ≠ some ((1 / 2 : Rat), (1 : Rat)) := by
  refine ⟨?_, ?_, by norm_num⟩
  · unfold update_best
    norm_num
  · unfold update_best_spec
    norm_num

/-- C4 (amended): the best-result comparison in this revision is by fitness
alone.  An errored run never replaces the best; a successful run replaces an
errored best unconditionally; and between two successful results the new one
wins exactly when its fitness is strictly higher — the payload (and hence any
price information in it) is never consulted, as the statement over an
arbitrary payload type P shows. -/
theorem C4_best_comparison {P : Type} (best : Option (Rat × P)) (f bf : Rat)
    (u bu : P) :
    update_best best Option.none = best ∧
    update_best Option.none (some (f, u)) = some (f, u) ∧
    update_best (some (bf, bu)) (some (f, u)) =
      (if bf < f then some (f, u) else some (bf, bu)) := by
  refine ⟨rfl, rfl, ?_⟩
  unfold update_best
  rfl

/-- Population::epochs from genetic/population.rs, one iteration of the
for-loop over i in 0..=n_epochs given the remaining iteration count: fill in
every unit's lazy fitness (popping reverses the stack), sort ascending by
cached fitness (Vec::sort_by is a stable sort; f64 partial_cmp never returns
None on these exact rationals and unwrap_or supplies 0 for an unset cache),
break early when the best fitness reaches 1, and otherwise run an epoch unless
this is the final iteration.  The source's last().unwrap() would panic on an
empty stack; getD 0 stands in (epochs is only invoked on nonempty
populations). -/
def epochs_loop {U : Type} (fitnessOf : U → Rat) (br : U → U → Rng → U × Rng)
    (bf sf : Rat) (ms : Nat) :
    Nat → List (LazyUnit U) → Rng → List (LazyUnit U)
  | 0, active, _ => active
  | Nat.succ rem, active, rng =>
    let processed := active.reverse.map (fun lu =>
      LazyUnit.mk lu.unit (some (lu.lazy_fitness.getD (fitnessOf lu.unit))))
    let sorted := processed.mergeSort (fun a b =>
      decide (a.lazy_fitness.getD 0 ≤ b.lazy_fitness.getD 0))
    if 1 ≤ ((sorted.getLast?.map (fun lu => lu.lazy_fitness.getD 0)).getD 0) then sorted
    else
      match rem with
      | 0 => sorted
      | Nat.succ _ =>
        let er := Population.epoch br bf sf ms sorted rng
        epochs_loop fitnessOf br bf sf ms rem er.1 er.2

/-- Population::epochs: wrap the initial units as lazy units (popping the
input vector reverses it), seed the PRNG from the 64-bit seed, run the
iteration loop, and pop the final stack back out (reversing again so the
strongest candidate comes first). -/
def Population.epochs {U : Type} (fitnessOf : U → Rat) (br : U → U → Rng → U × Rng)
    (bf sf : Rat) (ms n_epochs : Nat) (units0 : List U) (seed : Nat) : List U :=
  let active0 := (units0.reverse).map (fun u => LazyUnit.mk u Option.none)
  let final := epochs_loop fitnessOf br bf sf ms (n_epochs + 1) active0 (rngOf seed)
  (final.reverse).map LazyUnit.unit

/-- C3: determinism of the genetic search.  The whole pipeline is a pure
function of its inputs: every random draw comes from the PRNG stream seeded by
the 64-bit seed, so two runs of Population::epochs with identical units,
parameters and seed — and likewise two unit constructions with identical stock
pieces, demand, blade width, heuristic and PRNG state — produce identical
results. -/
theorem C3_determinism {U : Type} (fitnessOf fitnessOf2 : U → Rat)
    (br br2 : U → U → Rng → U × Rng) (bf bf2 sf sf2 : Rat)
    (ms ms2 n n2 : Nat) (us us2 : List U) (seed seed2 : Nat)
    (stock stock2 : List StockPiece) (cps cps2 : List CutPieceWithId)
    (bw bw2 : Nat)
    (hr hr2 : FreeRectChoiceHeuristic × SplitHeuristic × RotateCutPieceHeuristic)
    (rng rng2 : Rng)
    (h1 : fitnessOf = fitnessOf2) (h2 : br = br2) (h3 : bf = bf2) (h4 : sf = sf2)
    (h5 : ms = ms2) (h6 : n = n2) (h7 : us = us2) (h8 : seed = seed2)
    (h9 : stock = stock2) (h10 : cps = cps2) (h11 : bw = bw2) (h12 : hr = hr2)
    (h13 : rng = rng2) :
    Population.epochs fitnessOf br bf sf ms n us seed =
      Population.epochs fitnessOf2 br2 bf2 sf2 ms2 n2 us2 seed2 ∧
    g_with_heuristic stock cps bw hr rng =
      g_with_heuristic stock2 cps2 bw2 hr2 rng2 := by
  subst h1 h2 h3 h4 h5 h6 h7 h8 h9 h10 h11 h12 h13
  exact ⟨rfl, rfl⟩

/-- Witness for C3: two identical runs on a concrete two-unit population and a
concrete one-piece unit construction. -/
theorem C3_determinism_witness :
    Population.epochs (fun n : Nat => (n : Rat)) c9_br (1 / 2) (1 / 2) 2 1 [1, 2] 42 =
      Population.epochs (fun n : Nat => (n : Rat)) c9_br (1 / 2) (1 / 2) 2 1 [1, 2] 42 ∧
    g_with_heuristic [⟨10, 11, PatternDirection.none⟩]
        [⟨0, Option.none, 5, 6, PatternDirection.none, true⟩] 1
        ⟨FreeRectChoiceHeuristic.bestAreaFit, SplitHeuristic.shorterLeftoverAxis,
          RotateCutPieceHeuristic.preferUpright⟩ (rngOf 42) =
      g_with_heuristic [⟨10, 11, PatternDirection.none⟩]
        [⟨0, Option.none, 5, 6, PatternDirection.none, true⟩] 1
        ⟨FreeRectChoiceHeuristic.bestAreaFit, SplitHeuristic.shorterLeftoverAxis,
          RotateCutPieceHeuristic.preferUpright⟩ (rngOf 42) :=
  C3_determinism (fun n : Nat => (n : Rat)) (fun n : Nat => (n : Rat)) c9_br c9_br
    (1 / 2) (1 / 2) (1 / 2) (1 / 2) 2 2 1 1 [1, 2] [1, 2] 42 42
    [⟨10, 11, PatternDirection.none⟩] [⟨10, 11, PatternDirection.none⟩]
    [⟨0, Option.none, 5, 6, PatternDirection.none, true⟩]
    [⟨0, Option.none, 5, 6, PatternDirection.none, true⟩] 1 1
    ⟨FreeRectChoiceHeuristic.bestAreaFit, SplitHeuristic.shorterLeftoverAxis,
      RotateCutPieceHeuristic.preferUpright⟩
    ⟨FreeRectChoiceHeuristic.bestAreaFit, SplitHeuristic.shorterLeftoverAxis,
      RotateCutPieceHeuristic.preferUpright⟩
    (rngOf 42) (rngOf 42)
    rfl rfl rfl rfl rfl rfl rfl rfl rfl rfl rfl rfl rfl

end CutOpt
